import Mathlib

/-!
Verification development for the offer extraction and validation pipeline of
the cardeals scraper (src/scraper/validators.py, src/scraper/css_extractors.py,
src/scraper/extractor.py, src/scraper/config.py).

The Python code is shallowly embedded:
 - Python dict candidates become the structure RawOffer; a missing key is
   Option.none on the field, a key holding Python None is the value Val.vnone
   (for string-typed fields, Option.none inside).  Fields on which the Python
   code would raise an uncaught exception for non-string values (make, model,
   offer_type) are typed as optional strings, which is the domain on which the
   Python functions are total.
 - Python floats are modelled as exact rationals, Python ints as Int.
 - String coercions performed by the Python builtins float(str) / int(str) are
   kept abstract as a StrCoerce parameter: every theorem below holds for every
   possible behaviour of those builtins.
 - str.lower / str.title / str.strip and regular expression scanning are
   modelled over ASCII characters, the alphabet actually exercised by the
   scraper.
 - datetime.now().year is modelled by the constant CURRENT_YEAR.
-/

/-! ### Python string primitives (ASCII model) -/

/-- Python str.lower on one character, ASCII model (same arithmetic as the
Lean core function). -/
def pyLowerChar (c : Char) : Char := Char.toLower c

/-- Python str.upper on one character, ASCII model. -/
def pyUpperChar (c : Char) : Char := Char.toUpper c

/-- Python str.lower, ASCII model. -/
def pyLower (s : String) : String := String.mk (s.data.map pyLowerChar)

/-- Python whitespace test for the regex class backslash-s and for str.strip
(space, tab, newline, carriage return, vertical tab, form feed). -/
def pyIsSpace (c : Char) : Bool := c.isWhitespace || c = '\x0b' || c = '\x0c'

/-- Python str.strip on a character list: drop leading and trailing
whitespace. -/
def pyStripChars (l : List Char) : List Char :=
  ((l.dropWhile pyIsSpace).reverse.dropWhile pyIsSpace).reverse

/-- Python str.strip. -/
def pyStrip (s : String) : String := String.mk (pyStripChars s.data)

/-- Python substring test (the in operator) on character lists: does the
needle occur as a contiguous run inside the haystack?  An empty needle is
contained in everything, as in Python. -/
def containsChars (needle : List Char) : List Char → Bool
  | [] => needle.isPrefixOf []
  | c :: t => needle.isPrefixOf (c :: t) || containsChars needle t

/-- Python substring test: needle in hay. -/
def pyContains (hay needle : String) : Bool := containsChars needle.data hay.data

/-- Python str.find on character lists, returning the first index at which
the needle occurs (none instead of -1). -/
def idxOfChars (needle : List Char) : List Char → Nat → Option Nat
  | [], i => if needle.isPrefixOf [] then some i else none
  | c :: t, i => if needle.isPrefixOf (c :: t) then some i else idxOfChars needle t (i + 1)

/-- Python str.find (none instead of -1). -/
def pyFind (hay needle : String) : Option Nat := idxOfChars needle.data hay.data 0

/-- Python cased-character test, ASCII model: the ASCII letters. -/
def pyIsCased (c : Char) : Bool :=
  decide ((65 ≤ c.toNat ∧ c.toNat ≤ 90) ∨ (97 ≤ c.toNat ∧ c.toNat ≤ 122))

/-- Python str.title on a character list, ASCII model: the first cased
character of every cased run is uppercased, the rest lowercased, tracking
whether the previous character was cased. -/
def titleChars (prevCased : Bool) : List Char → List Char
  | [] => []
  | c :: t =>
    if pyIsCased c then
      (if prevCased then pyLowerChar c else pyUpperChar c) :: titleChars true t
    else
      c :: titleChars false t

/-- Python str.title, ASCII model. -/
def pyTitle (s : String) : String := String.mk (titleChars false s.data)

/-! ### Python values stored in candidate offer dicts -/

/-- A Python value as it can appear in a candidate offer dict: None, an int,
a float (modelled as an exact rational) or a string. -/
inductive Val where
  | vnone
  | vint (n : Int)
  | vfloat (q : ℚ)
  | vstr (s : String)
deriving DecidableEq

/-- Python truthiness of a value (None, 0, 0.0 and the empty string are
falsy). -/
def Val.truthy : Val → Bool
  | .vnone => false
  | .vint n => n ≠ 0
  | .vfloat q => q ≠ 0
  | .vstr s => s ≠ ""

/-- The behaviour of the Python builtins float(str) and int(str), kept
abstract: every theorem holds for every possible parser behaviour. -/
structure StrCoerce where
  toFloat : String → Option ℚ
  toInt : String → Option Int

/-- Python int() truncates a float toward zero. -/
def ratTrunc (q : ℚ) : Int := q.num.tdiv q.den

/-- Python float(v); none models a raised TypeError or ValueError. -/
def vFloat (co : StrCoerce) : Val → Option ℚ
  | .vnone => none
  | .vint n => some (n : ℚ)
  | .vfloat q => some q
  | .vstr s => co.toFloat s

/-- Python int(v); none models a raised TypeError or ValueError. -/
def vInt (co : StrCoerce) : Val → Option Int
  | .vnone => none
  | .vint n => some n
  | .vfloat q => some (ratTrunc q)
  | .vstr s => co.toInt s

/-- A candidate offer dict.  A field that is Option.none models a missing
key; Val.vnone (or the inner Option.none for string-typed fields) models a
key bound to Python None. -/
structure RawOffer where
  year : Option Val := none
  make : Option (Option String) := none
  image_url : Option Val := none
  model : Option (Option String) := none
  trim : Option Val := none
  offer_type : Option String := none
  monthly_payment : Option Val := none
  down_payment : Option Val := none
  term_months : Option Val := none
  annual_mileage : Option Val := none
  apr : Option Val := none
  msrp : Option Val := none
  selling_price : Option Val := none
  offer_end_date : Option Val := none
  disclaimer : Option Val := none
  confidence : Option Val := none
  source_anchor : Option Val := none
  extraction_method : Option Val := none
deriving DecidableEq

/-- Python offer.get(key): a missing key reads as None. -/
def pyGet (f : Option Val) : Val := f.getD Val.vnone

/-! ### src/scraper/config.py -/

/-- Known Toyota models for validation (config.py). -/
def TOYOTA_MODELS : List String :=
  ["4Runner", "bZ4X", "Camry", "Corolla", "Corolla Cross",
   "Crown", "GR86", "GR Corolla", "GR Supra", "Grand Highlander",
   "Highlander", "Land Cruiser", "Mirai", "Prius", "RAV4",
   "Sequoia", "Sienna", "Tacoma", "Tundra", "Venza"]

/-- Known Honda models for validation (config.py). -/
def HONDA_MODELS : List String :=
  ["Accord", "Accord Hybrid", "Civic", "Civic Hybrid", "Civic Hatchback",
   "CR-V", "CR-V Hybrid", "HR-V", "Passport", "Pilot",
   "Prologue", "Ridgeline", "Odyssey", "Insight"]

/-- Known Tesla models for validation (config.py). -/
def TESLA_MODELS : List String :=
  ["Model 3", "Model Y", "Model S", "Model X", "Cybertruck"]

/-- All supported models, in the fixed scan order (config.py). -/
def ALL_MODELS : List String := TOYOTA_MODELS ++ HONDA_MODELS ++ TESLA_MODELS

/-- Offer-indicative keywords for the generative-fallback pre-check
(config.py). -/
def OFFER_KEYWORDS : List String :=
  ["/mo", "/month", "per month", "monthly",
   "lease", "finance", "apr", "due at signing",
   "$2", "$3", "$4", "$5"]

/-- Minimum number of distinct offer keywords required before calling the
generative backend (config.py). -/
def MIN_OFFER_KEYWORDS : Nat := 3

/-! ### src/scraper/validators.py -/

/-- Valid lease and finance term lengths in months (validators.py). -/
def VALID_TERMS : List Int := [24, 27, 30, 33, 36, 39, 42, 48, 60, 72]

/-- Model of datetime.now().year at verification time (validators.py
computes this from the clock). -/
def CURRENT_YEAR : Int := 2026

/-- Years accepted by the validator (validators.py). -/
def VALID_YEARS : List Int := [CURRENT_YEAR, CURRENT_YEAR + 1, CURRENT_YEAR - 1]

/-- Valid makes (validators.py). -/
def VALID_MAKES : List String := ["Toyota", "Honda", "Tesla"]

/-- The table of textual model-name variations inside normalize_model_name
(validators.py), in dict insertion order. -/
def modelVariations : List (String × String) :=
  [("rav 4", "RAV4"), ("rav-4", "RAV4"),
   ("4 runner", "4Runner"), ("4-runner", "4Runner"),
   ("gr 86", "GR86"), ("gr-86", "GR86"),
   ("gr supra", "GR Supra"), ("gr-supra", "GR Supra"),
   ("corolla cross", "Corolla Cross"),
   ("grand highlander", "Grand Highlander"),
   ("land cruiser", "Land Cruiser"),
   ("cr-v", "CR-V"), ("crv", "CR-V"),
   ("hr-v", "HR-V"), ("hrv", "HR-V"),
   ("model3", "Model 3"), ("modely", "Model Y"),
   ("models", "Model S"), ("modelx", "Model X")]

/-- The scan over ALL_MODELS inside normalize_model_name: first known model
that equals the lowered input, or contains it, or is contained in it. -/
def findKnownModel (ml : String) : List String → Option String
  | [] => none
  | k :: ks =>
    if pyLower k = ml then some k
    else if pyContains (pyLower k) ml || pyContains ml (pyLower k) then some k
    else findKnownModel ml ks

/-- The scan over the variations table inside normalize_model_name: first
variation key contained in the lowered input wins. -/
def findVariation (ml : String) : List (String × String) → Option String
  | [] => none
  | (v, n) :: rest => if pyContains ml v then some n else findVariation ml rest

/-- normalize_model_name (validators.py): normalize a model name against the
known vocabulary, returning none when unrecognized. -/
def normalize_model_name (model : String) : Option String :=
  if model = "" then none
  else
    let ml := pyStrip (pyLower model)
    match findKnownModel ml ALL_MODELS with
    | some k => some k
    | none => findVariation ml modelVariations

/-- normalize_make (validators.py).  The argument is the value of
offer.get with default, an optional string (none models Python None). -/
def normalize_make (make : Option String) : String :=
  match make with
  | none => "Toyota"
  | some s =>
    if s = "" then "Toyota"
    else
      let ml := pyStrip (pyLower s)
      match VALID_MAKES.find? (fun vm => pyLower vm = ml) with
      | some vm => vm
      | none => pyTitle s

/-- Validation error messages of validate_offer, as a typed inductive
carrying the interpolated payloads of the Python f-strings. -/
inductive VErr where
  | missingModel
  | missingYear
  | monthlyOutOfRange (q : ℚ)
  | monthlyInvalid (v : Val)
  | downOutOfRange (q : ℚ)
  | downInvalid (v : Val)
  | invalidTerm (v : Val)
  | invalidYear (v : Val)
  | unknownModel (s : String)
  | lowConfidence (q : ℚ)
  | invalidOfferType (s : String)
deriving DecidableEq

/-- The Python expression min(VALID_TERMS, key=lambda x: abs(x - term)):
the first canonical term at minimal distance from t. -/
def snapTerm (t : Int) : Int :=
  match VALID_TERMS with
  | [] => t
  | c :: cs => cs.foldl (fun best c' => if (c' - t).natAbs < (best - t).natAbs then c' else best) c

/-- validate_offer (validators.py): plausibility checks on a candidate,
returning the is_valid flag together with the list of errors in the order
the Python code appends them. -/
def validate_offer (co : StrCoerce) (offer : RawOffer) : Bool × List VErr :=
  let errsModel : List VErr :=
    match offer.model with
    | some (some s) => if s = "" then [VErr.missingModel] else []
    | _ => [VErr.missingModel]
  let errsYearReq : List VErr :=
    if (pyGet offer.year).truthy then [] else [VErr.missingYear]
  let monthly := pyGet offer.monthly_payment
  let errsMonthly : List VErr :=
    if monthly = Val.vnone then []
    else
      match vFloat co monthly with
      | some q => if q < 50 ∨ q > 2000 then [VErr.monthlyOutOfRange q] else []
      | none => [VErr.monthlyInvalid monthly]
  let down := pyGet offer.down_payment
  let errsDown : List VErr :=
    if down = Val.vnone then []
    else
      match vFloat co down with
      | some q => if q < 0 ∨ q > 20000 then [VErr.downOutOfRange q] else []
      | none => [VErr.downInvalid down]
  let term := pyGet offer.term_months
  let errsTerm : List VErr :=
    if term = Val.vnone then []
    else
      match vInt co term with
      | some t =>
        if t ∈ VALID_TERMS then []
        else if (snapTerm t - t).natAbs ≤ 3 then []
        else [VErr.invalidTerm (Val.vint t)]
      | none => [VErr.invalidTerm term]
  let yearv := pyGet offer.year
  let errsYear : List VErr :=
    if yearv = Val.vnone then []
    else
      match vInt co yearv with
      | some y => if y ∈ VALID_YEARS then [] else [VErr.invalidYear (Val.vint y)]
      | none => [VErr.invalidYear yearv]
  let errsModelName : List VErr :=
    match offer.model with
    | some (some s) =>
      if s ≠ "" ∧ normalize_model_name s = none then [VErr.unknownModel s] else []
    | _ => []
  let conf := (offer.confidence).getD (Val.vfloat (0.8 : ℚ))
  let errsConf : List VErr :=
    match vFloat co conf with
    | some q => if q < (0.5 : ℚ) then [VErr.lowConfidence q] else []
    | none => []
  let ot := (offer.offer_type).getD "lease"
  let errsOT : List VErr :=
    if ot = "lease" ∨ ot = "finance" then [] else [VErr.invalidOfferType ot]
  let errors := errsModel ++ errsYearReq ++ errsMonthly ++ errsDown ++ errsTerm
    ++ errsYear ++ errsModelName ++ errsConf ++ errsOT
  (errors.isEmpty, errors)

/-- The year field of clean_offer: int(offer.get(year, CURRENT_YEAR)) with
the exception handler falling back to CURRENT_YEAR. -/
def cleanYearField (co : StrCoerce) (year : Option Val) : Int :=
  match vInt co (year.getD (Val.vint CURRENT_YEAR)) with
  | some n => n
  | none => CURRENT_YEAR

/-- The model normalization step of clean_offer:
normalize_model_name(model) or model, where the argument is the value of
offer.get(model, empty string). -/
def cleanModelStep (mo : Option String) : Option String :=
  match (match mo with | some s => normalize_model_name s | none => none) with
  | some k => some k
  | none => mo

/-- The model field of clean_offer, from the raw model field (a missing key
defaults to the empty string). -/
def cleanModelField (model : Option (Option String)) : Option String :=
  cleanModelStep (match model with | some v => v | none => some "")

/-- The pattern value-or-None used by clean_offer for trim, offer_end_date
and disclaimer: a falsy value becomes None. -/
def cleanOrNoneField (v? : Option Val) : Val :=
  let v := v?.getD Val.vnone
  if v.truthy then v else Val.vnone

/-- The offer_type field of clean_offer: lowercase, and anything outside
lease and finance is coerced to lease. -/
def cleanOfferTypeField (ot : Option String) : String :=
  let l := pyLower (ot.getD "lease")
  if l = "lease" ∨ l = "finance" then l else "lease"

/-- The float-or-None fields of clean_offer (monthly_payment, down_payment,
apr, msrp, selling_price): float(v) when truthy, else None, with the
exception handler producing None. -/
def cleanFloatField (co : StrCoerce) (v? : Option Val) : Val :=
  let v := v?.getD Val.vnone
  if v.truthy then
    match vFloat co v with
    | some q => Val.vfloat q
    | none => Val.vnone
  else Val.vnone

/-- The int-or-None field of clean_offer (annual_mileage). -/
def cleanIntField (co : StrCoerce) (v? : Option Val) : Val :=
  let v := v?.getD Val.vnone
  if v.truthy then
    match vInt co v with
    | some n => Val.vint n
    | none => Val.vnone
  else Val.vnone

/-- The term_months field of clean_offer: int coercion, then snapping to the
closest canonical term when nonzero and not already canonical. -/
def cleanTermField (co : StrCoerce) (v? : Option Val) : Val :=
  let v := v?.getD Val.vnone
  if v.truthy then
    match vInt co v with
    | some t => Val.vint (if t ≠ 0 ∧ t ∉ VALID_TERMS then snapTerm t else t)
    | none => Val.vnone
  else Val.vnone

/-- The confidence field of clean_offer: float(offer.get(confidence, 0.8))
with the exception handler falling back to 0.8. -/
def cleanConfidenceField (co : StrCoerce) (conf : Option Val) : ℚ :=
  match vFloat co (conf.getD (Val.vfloat (0.8 : ℚ))) with
  | some q => q
  | none => (0.8 : ℚ)

/-- clean_offer (validators.py): type coercion and normalization of a
candidate.  The result dict has exactly the keys the Python code writes;
source_anchor and extraction_method are not among them. -/
def clean_offer (co : StrCoerce) (offer : RawOffer) : RawOffer :=
  { year := some (Val.vint (cleanYearField co offer.year))
  , make := some (some (normalize_make
      (match offer.make with | some v => v | none => some ("Toyota"))))
  , image_url := some (offer.image_url.getD Val.vnone)
  , model := some (cleanModelField offer.model)
  , trim := some (cleanOrNoneField offer.trim)
  , offer_type := some (cleanOfferTypeField offer.offer_type)
  , monthly_payment := some (cleanFloatField co offer.monthly_payment)
  , down_payment := some (cleanFloatField co offer.down_payment)
  , term_months := some (cleanTermField co offer.term_months)
  , annual_mileage := some (cleanIntField co offer.annual_mileage)
  , apr := some (cleanFloatField co offer.apr)
  , msrp := some (cleanFloatField co offer.msrp)
  , selling_price := some (cleanFloatField co offer.selling_price)
  , offer_end_date := some (cleanOrNoneField offer.offer_end_date)
  , disclaimer := some (cleanOrNoneField offer.disclaimer)
  , confidence := some (Val.vfloat (cleanConfidenceField co offer.confidence))
  , source_anchor := none
  , extraction_method := none }

/-! ### Helper lemmas about term snapping -/

/-- The fold underlying snapTerm. -/
def termFold (t : Int) (c : Int) (cs : List Int) : Int :=
  cs.foldl (fun best c' => if (c' - t).natAbs < (best - t).natAbs then c' else best) c

theorem termFold_mem (t c : Int) (cs : List Int) : termFold t c cs ∈ c :: cs := by
  induction cs generalizing c with
  | nil => simp [termFold]
  | cons c' cs' ih =>
    have h := ih (c := if (c' - t).natAbs < (c - t).natAbs then c' else c)
    rcases List.mem_cons.mp h with h1 | h1
    · by_cases hlt : (c' - t).natAbs < (c - t).natAbs
      · simp only [termFold, List.foldl_cons] at *
        rw [if_pos hlt] at h1 ⊢
        rw [h1]; simp
      · simp only [termFold, List.foldl_cons] at *
        rw [if_neg hlt] at h1 ⊢
        rw [h1]; simp
    · simp only [termFold, List.foldl_cons] at *
      right; right; exact h1

theorem termFold_min (t c : Int) (cs : List Int) :
    ∀ x ∈ c :: cs, (termFold t c cs - t).natAbs ≤ (x - t).natAbs := by
  induction cs generalizing c with
  | nil =>
    intro x hx
    simp at hx
    simp [termFold, hx]
  | cons c' cs' ih =>
    intro x hx
    have hres : termFold t c (c' :: cs') =
        termFold t (if (c' - t).natAbs < (c - t).natAbs then c' else c) cs' := rfl
    have hstep : ∀ b : Int, (termFold t b cs' - t).natAbs ≤ (b - t).natAbs :=
      fun b => ih b b (List.mem_cons_self b cs')
    rcases List.mem_cons.mp hx with h1 | h1
    · rw [h1, hres]
      by_cases hlt : (c' - t).natAbs < (c - t).natAbs
      · rw [if_pos hlt]
        have hs := hstep c'
        omega
      · rw [if_neg hlt]
        exact hstep c
    · rcases List.mem_cons.mp h1 with h2 | h2
      · rw [h2, hres]
        by_cases hlt : (c' - t).natAbs < (c - t).natAbs
        · rw [if_pos hlt]
          exact hstep c'
        · rw [if_neg hlt]
          have hs := hstep c
          omega
      · rw [hres]
        by_cases hlt : (c' - t).natAbs < (c - t).natAbs
        · rw [if_pos hlt]
          exact ih c' x (List.mem_cons.mpr (Or.inr h2))
        · rw [if_neg hlt]
          exact ih c x (List.mem_cons.mpr (Or.inr h2))


theorem snapTerm_eq (t : Int) : snapTerm t = termFold t 24 [27, 30, 33, 36, 39, 42, 48, 60, 72] := rfl

theorem snapTerm_mem (t : Int) : snapTerm t ∈ VALID_TERMS := by
  rw [snapTerm_eq]
  exact termFold_mem t 24 [27, 30, 33, 36, 39, 42, 48, 60, 72]

theorem snapTerm_min (t : Int) : ∀ c ∈ VALID_TERMS, (snapTerm t - t).natAbs ≤ (c - t).natAbs := by
  rw [snapTerm_eq]
  exact termFold_min t 24 [27, 30, 33, 36, 39, 42, 48, 60, 72]

theorem validate_offer_fst (co : StrCoerce) (x : RawOffer) :
    (validate_offer co x).1 = ((validate_offer co x).2).isEmpty := rfl

theorem validate_offer_false_of_mem {co : StrCoerce} {x : RawOffer} {e : VErr}
    (h : e ∈ (validate_offer co x).2) : (validate_offer co x).1 = false := by
  rw [validate_offer_fst]
  rcases hE : (validate_offer co x).2 with _ | ⟨a, l⟩
  · rw [hE] at h; simp at h
  · rfl

/-! ### Claims C3, C7, C9 -/

/-- C3: for every integer term_months within 3 of a canonical term,
clean_offer produces a nearest canonical term; for every term_months more
than 3 away from every canonical term, validate_offer reports an
invalid-term error and the candidate is rejected. -/
theorem c3_term_snapping (co : StrCoerce) (x : RawOffer) (t : Int)
    (hx : x.term_months = some (Val.vint t)) :
    ((∃ c ∈ VALID_TERMS, (t - c).natAbs ≤ 3) →
      ∃ u, (clean_offer co x).term_months = some (Val.vint u) ∧ u ∈ VALID_TERMS ∧
        (t - u).natAbs ≤ 3 ∧ ∀ c ∈ VALID_TERMS, (t - u).natAbs ≤ (t - c).natAbs)
    ∧ ((∀ c ∈ VALID_TERMS, 3 < (t - c).natAbs) →
      (validate_offer co x).1 = false ∧
        VErr.invalidTerm (Val.vint t) ∈ (validate_offer co x).2) := by
  constructor
  · rintro ⟨c0, hc0, hd⟩
    have ht0 : t ≠ 0 := by
      have hc0' : c0 = 24 ∨ c0 = 27 ∨ c0 = 30 ∨ c0 = 33 ∨ c0 = 36 ∨ c0 = 39 ∨ c0 = 42 ∨
          c0 = 48 ∨ c0 = 60 ∨ c0 = 72 := by simpa [VALID_TERMS] using hc0
      omega
    have hterm : (clean_offer co x).term_months = some (cleanTermField co x.term_months) := rfl
    rw [hx] at hterm
    have h2 : cleanTermField co (some (Val.vint t)) =
        Val.vint (if t ≠ 0 ∧ t ∉ VALID_TERMS then snapTerm t else t) := by
      simp [cleanTermField, Val.truthy, vInt, ht0]
    by_cases hmem : t ∈ VALID_TERMS
    · refine ⟨t, ?_, hmem, by omega, ?_⟩
      · rw [hterm, h2]; simp [hmem]
      · intro c hc; omega
    · refine ⟨snapTerm t, ?_, snapTerm_mem t, ?_, ?_⟩
      · rw [hterm, h2]; simp [hmem, ht0]
      · have hs := snapTerm_min t c0 hc0
        omega
      · intro c hc
        have hs := snapTerm_min t c hc
        omega
  · intro hfar
    have hmem : t ∉ VALID_TERMS := by
      intro h
      have hf := hfar t h
      omega
    have hsnapf := hfar (snapTerm t) (snapTerm_mem t)
    have hsnap2 : ¬ ((snapTerm t - t).natAbs ≤ 3) := by omega
    have hmemE : VErr.invalidTerm (Val.vint t) ∈ (validate_offer co x).2 := by
      simp only [validate_offer, hx]
      simp [pyGet, vInt, hmem, hsnap2]
    exact ⟨validate_offer_false_of_mem hmemE, hmemE⟩

/-- C7: validate_offer reports an error for every candidate whose offer_type
is present and not exactly lease or finance; clean_offer lowercases the
offer_type and coerces anything outside lease and finance to lease, so every
cleaned candidate has offer_type among lease and finance. -/
theorem c7_offer_type_invariant :
    (∀ (co : StrCoerce) (x : RawOffer) (s : String),
        x.offer_type = some s → s ≠ "lease" → s ≠ "finance" →
        VErr.invalidOfferType s ∈ (validate_offer co x).2 ∧ (validate_offer co x).1 = false)
    ∧ (∀ (co : StrCoerce) (x : RawOffer),
        (clean_offer co x).offer_type = some ("lease") ∨
        (clean_offer co x).offer_type = some ("finance"))
    ∧ (∀ (co : StrCoerce) (x : RawOffer),
        pyLower (x.offer_type.getD ("lease")) ≠ "lease" →
        pyLower (x.offer_type.getD ("lease")) ≠ "finance" →
        (clean_offer co x).offer_type = some ("lease")) := by
  refine ⟨?_, ?_, ?_⟩
  · intro co x s hx h1 h2
    have hmem : VErr.invalidOfferType s ∈ (validate_offer co x).2 := by
      simp only [validate_offer, hx]
      simp [h1, h2]
    exact ⟨hmem, validate_offer_false_of_mem hmem⟩
  · intro co x
    have hot : (clean_offer co x).offer_type = some (cleanOfferTypeField x.offer_type) := rfl
    rw [hot]
    unfold cleanOfferTypeField
    by_cases h : pyLower (x.offer_type.getD ("lease")) = "lease" ∨
        pyLower (x.offer_type.getD ("lease")) = "finance"
    · rcases h with h | h <;> simp [h]
    · simp [h]
  · intro co x h1 h2
    have hot : (clean_offer co x).offer_type = some (cleanOfferTypeField x.offer_type) := rfl
    rw [hot]
    unfold cleanOfferTypeField
    simp [h1, h2]

/-- C9: normalize_model_name scans the vocabulary in list order with
bidirectional substring matching, so Corolla Cross and GR Corolla both
normalize to Corolla, and clean_offer rewrites the model Corolla Cross to
Corolla. -/
theorem c9_model_scan_order :
    normalize_model_name ("Corolla Cross") = some ("Corolla")
    ∧ normalize_model_name ("GR Corolla") = some ("Corolla")
    ∧ ∀ (co : StrCoerce) (x : RawOffer),
        x.model = some (some ("Corolla Cross")) →
        (clean_offer co x).model = some (some ("Corolla")) := by
  refine ⟨by decide, by decide, ?_⟩
  intro co x hx
  have hm : (clean_offer co x).model = some (cleanModelField x.model) := rfl
  rw [hm, hx]
  decide

/-- A trivial concrete string-coercion behaviour used by the witnesses. -/
def co0 : StrCoerce := ⟨fun _ => none, fun _ => none⟩

/-- Concrete candidate with a term within 3 of a canonical term. -/
def xC3a : RawOffer := { term_months := some (Val.vint 37) }

/-- Concrete candidate with a term more than 3 from every canonical term. -/
def xC3b : RawOffer := { term_months := some (Val.vint 100) }

theorem c3_term_snapping_witness :
    (∃ u, (clean_offer co0 xC3a).term_months = some (Val.vint u) ∧ u ∈ VALID_TERMS ∧
      ((37 : Int) - u).natAbs ≤ 3 ∧
      ∀ c ∈ VALID_TERMS, ((37 : Int) - u).natAbs ≤ ((37 : Int) - c).natAbs)
    ∧ ((validate_offer co0 xC3b).1 = false ∧
      VErr.invalidTerm (Val.vint 100) ∈ (validate_offer co0 xC3b).2) :=
  ⟨(c3_term_snapping co0 xC3a 37 rfl).1 ⟨36, by decide, by decide⟩,
   (c3_term_snapping co0 xC3b 100 rfl).2 (by decide)⟩

/-- Concrete candidate with an unrecognized offer type. -/
def xC7 : RawOffer := { offer_type := some ("cash") }

theorem c7_offer_type_invariant_witness :
    (VErr.invalidOfferType ("cash") ∈ (validate_offer co0 xC7).2 ∧
      (validate_offer co0 xC7).1 = false)
    ∧ ((clean_offer co0 xC7).offer_type = some ("lease") ∨
      (clean_offer co0 xC7).offer_type = some ("finance"))
    ∧ (clean_offer co0 xC7).offer_type = some ("lease") :=
  ⟨c7_offer_type_invariant.1 co0 xC7 ("cash") rfl (by decide) (by decide),
   c7_offer_type_invariant.2.1 co0 xC7,
   c7_offer_type_invariant.2.2 co0 xC7 (by decide) (by decide)⟩

/-- Concrete candidate whose model is Corolla Cross. -/
def xC9 : RawOffer := { model := some (some ("Corolla Cross")) }

theorem c9_model_scan_order_witness :
    (clean_offer co0 xC9).model = some (some ("Corolla")) :=
  c9_model_scan_order.2.2 co0 xC9 rfl

/-! ### Character-level lemmas for the ASCII case maps -/

theorem char_ofNat_toNat_small {n : Nat} (h1 : 65 ≤ n) (h2 : n ≤ 122) :
    (Char.ofNat n).toNat = n := by
  interval_cases n <;> decide

theorem pyUpperChar_val {c : Char} (h1 : 97 ≤ c.toNat) (h2 : c.toNat ≤ 122) :
    pyUpperChar c = Char.ofNat (c.toNat - 32) := by
  simp only [pyUpperChar, Char.toUpper]
  rw [if_pos ⟨h1, h2⟩]

theorem pyUpperChar_id {c : Char} (h : ¬(97 ≤ c.toNat ∧ c.toNat ≤ 122)) :
    pyUpperChar c = c := by
  simp only [pyUpperChar, Char.toUpper]
  rw [if_neg h]

theorem pyLowerChar_val {c : Char} (h1 : 65 ≤ c.toNat) (h2 : c.toNat ≤ 90) :
    pyLowerChar c = Char.ofNat (c.toNat + 32) := by
  simp only [pyLowerChar, Char.toLower]
  rw [if_pos ⟨h1, h2⟩]

theorem pyLowerChar_id {c : Char} (h : ¬(65 ≤ c.toNat ∧ c.toNat ≤ 90)) :
    pyLowerChar c = c := by
  simp only [pyLowerChar, Char.toLower]
  rw [if_neg h]

theorem pyUpperChar_toNat {c : Char} (h1 : 97 ≤ c.toNat) (h2 : c.toNat ≤ 122) :
    (pyUpperChar c).toNat = c.toNat - 32 := by
  rw [pyUpperChar_val h1 h2]
  exact char_ofNat_toNat_small (by omega) (by omega)

theorem pyLowerChar_toNat {c : Char} (h1 : 65 ≤ c.toNat) (h2 : c.toNat ≤ 90) :
    (pyLowerChar c).toNat = c.toNat + 32 := by
  rw [pyLowerChar_val h1 h2]
  exact char_ofNat_toNat_small (by omega) (by omega)

theorem pyUpperChar_idem (c : Char) : pyUpperChar (pyUpperChar c) = pyUpperChar c := by
  by_cases h : 97 ≤ c.toNat ∧ c.toNat ≤ 122
  · have ht := pyUpperChar_toNat h.1 h.2
    exact pyUpperChar_id (by omega)
  · rw [pyUpperChar_id h]
    exact pyUpperChar_id h

theorem pyLowerChar_idem (c : Char) : pyLowerChar (pyLowerChar c) = pyLowerChar c := by
  by_cases h : 65 ≤ c.toNat ∧ c.toNat ≤ 90
  · have ht := pyLowerChar_toNat h.1 h.2
    exact pyLowerChar_id (by omega)
  · rw [pyLowerChar_id h]
    exact pyLowerChar_id h

theorem pyLowerChar_pyUpperChar (c : Char) :
    pyLowerChar (pyUpperChar c) = pyLowerChar c := by
  by_cases h : 97 ≤ c.toNat ∧ c.toNat ≤ 122
  · have ht := pyUpperChar_toNat h.1 h.2
    have hl : pyLowerChar (pyUpperChar c) = Char.ofNat ((pyUpperChar c).toNat + 32) :=
      pyLowerChar_val (by omega) (by omega)
    rw [hl, ht]
    have he : c.toNat - 32 + 32 = c.toNat := by omega
    rw [he, Char.ofNat_toNat]
    exact (pyLowerChar_id (by omega)).symm
  · rw [pyUpperChar_id h]

theorem pyIsCased_pyUpperChar (c : Char) : pyIsCased (pyUpperChar c) = pyIsCased c := by
  by_cases h : 97 ≤ c.toNat ∧ c.toNat ≤ 122
  · have ht := pyUpperChar_toNat h.1 h.2
    unfold pyIsCased
    rw [decide_eq_decide, ht]
    omega
  · rw [pyUpperChar_id h]

theorem pyIsCased_pyLowerChar (c : Char) : pyIsCased (pyLowerChar c) = pyIsCased c := by
  by_cases h : 65 ≤ c.toNat ∧ c.toNat ≤ 90
  · have ht := pyLowerChar_toNat h.1 h.2
    unfold pyIsCased
    rw [decide_eq_decide, ht]
    omega
  · rw [pyLowerChar_id h]

/-! ### Title-case lemmas -/

theorem titleChars_idem (b : Bool) (l : List Char) :
    titleChars b (titleChars b l) = titleChars b l := by
  induction l generalizing b with
  | nil => rfl
  | cons c t ih =>
    by_cases hc : pyIsCased c = true
    · cases b with
      | false =>
        have hcc : pyIsCased (pyUpperChar c) = true := by
          rw [pyIsCased_pyUpperChar]; exact hc
        simp only [titleChars, hc, if_true, Bool.false_eq_true, if_false, hcc]
        rw [pyUpperChar_idem, ih true]
      | true =>
        have hcc : pyIsCased (pyLowerChar c) = true := by
          rw [pyIsCased_pyLowerChar]; exact hc
        simp only [titleChars, hc, if_true, hcc]
        rw [pyLowerChar_idem, ih true]
    · have hc' : pyIsCased c = false := by simpa using hc
      simp only [titleChars, hc', Bool.false_eq_true, if_false]
      rw [ih false]

theorem map_pyLowerChar_titleChars (b : Bool) (l : List Char) :
    (titleChars b l).map pyLowerChar = l.map pyLowerChar := by
  induction l generalizing b with
  | nil => rfl
  | cons c t ih =>
    by_cases hc : pyIsCased c = true
    · cases b with
      | false =>
        simp only [titleChars, hc, if_true, Bool.false_eq_true, if_false, List.map_cons]
        rw [pyLowerChar_pyUpperChar, ih true]
      | true =>
        simp only [titleChars, hc, if_true, List.map_cons]
        rw [pyLowerChar_idem, ih true]
    · have hc' : pyIsCased c = false := by simpa using hc
      simp only [titleChars, hc', Bool.false_eq_true, if_false, List.map_cons]
      rw [ih false]

theorem titleChars_length (b : Bool) (l : List Char) :
    (titleChars b l).length = l.length := by
  induction l generalizing b with
  | nil => rfl
  | cons c t ih =>
    by_cases hc : pyIsCased c = true
    · simp only [titleChars, hc, if_true, List.length_cons, ih true]
    · have hc' : pyIsCased c = false := by simpa using hc
      simp only [titleChars, hc', Bool.false_eq_true, if_false, List.length_cons, ih false]

theorem pyTitle_idem (s : String) : pyTitle (pyTitle s) = pyTitle s :=
  congrArg String.mk (titleChars_idem false s.data)

theorem pyLower_pyTitle (s : String) : pyLower (pyTitle s) = pyLower s :=
  congrArg String.mk (map_pyLowerChar_titleChars false s.data)

theorem pyTitle_ne_empty {s : String} (h : s ≠ "") : pyTitle s ≠ "" := by
  intro he
  apply h
  have hd : titleChars false s.data = [] := congrArg String.data he
  have hl := titleChars_length false s.data
  rw [hd] at hl
  have hnil : s.data = [] := List.length_eq_zero.mp hl.symm
  calc s = String.mk s.data := rfl
    _ = String.mk [] := by rw [hnil]
    _ = "" := rfl

/-! ### Idempotence facts about the normalizers -/

theorem normalize_make_known :
    ∀ m : String, m = "Toyota" ∨ m = "Honda" ∨ m = "Tesla" →
      normalize_make (some m) = m := by
  rintro m (rfl | rfl | rfl) <;> decide

theorem normalize_make_some (s : String) :
    normalize_make (some s) =
      (if s = "" then "Toyota"
       else
        match VALID_MAKES.find? (fun vm => pyLower vm = pyStrip (pyLower s)) with
        | some vm => vm
        | none => pyTitle s) := rfl

theorem normalize_make_idem (v : Option String) :
    normalize_make (some (normalize_make v)) = normalize_make v := by
  cases v with
  | none =>
    show normalize_make (some ("Toyota")) = "Toyota"
    exact normalize_make_known _ (Or.inl rfl)
  | some s =>
    by_cases hs : s = ""
    · subst hs
      show normalize_make (some ("Toyota")) = "Toyota"
      exact normalize_make_known _ (Or.inl rfl)
    · cases hfind : VALID_MAKES.find? (fun vm => pyLower vm = pyStrip (pyLower s)) with
      | some vm =>
        have hvm : normalize_make (some s) = vm := by
          rw [normalize_make_some, if_neg hs, hfind]
        rw [hvm]
        have hmem := List.mem_of_find?_eq_some hfind
        apply normalize_make_known
        simpa [VALID_MAKES] using hmem
      | none =>
        have hti : normalize_make (some s) = pyTitle s := by
          rw [normalize_make_some, if_neg hs, hfind]
        rw [hti]
        rw [normalize_make_some, if_neg (pyTitle_ne_empty hs), pyLower_pyTitle, hfind]
        exact pyTitle_idem s

theorem findKnownModel_mem {ml : String} {ks : List String} {k : String}
    (h : findKnownModel ml ks = some k) : k ∈ ks := by
  induction ks with
  | nil => simp [findKnownModel] at h
  | cons k' ks' ih =>
    unfold findKnownModel at h
    by_cases h1 : pyLower k' = ml
    · rw [if_pos h1] at h
      simp at h
      simp [h]
    · rw [if_neg h1] at h
      by_cases h2 : (pyContains (pyLower k') ml || pyContains ml (pyLower k')) = true
      · rw [if_pos h2] at h
        simp at h
        simp [h]
      · rw [if_neg h2] at h
        exact List.mem_cons.mpr (Or.inr (ih h))

theorem findVariation_mem {ml : String} {vs : List (String × String)} {k : String}
    (h : findVariation ml vs = some k) : k ∈ vs.map Prod.snd := by
  induction vs with
  | nil => simp [findVariation] at h
  | cons p rest ih =>
    unfold findVariation at h
    by_cases h1 : pyContains ml p.1 = true
    · rw [if_pos h1] at h
      simp at h
      simp [h]
    · rw [if_neg h1] at h
      exact List.mem_cons.mpr (Or.inr (ih h))

theorem normalize_model_name_mem {s k : String} (h : normalize_model_name s = some k) :
    k ∈ ALL_MODELS ++ modelVariations.map Prod.snd := by
  unfold normalize_model_name at h
  by_cases hs : s = ""
  · rw [if_pos hs] at h
    exact absurd h (by simp)
  · rw [if_neg hs] at h
    have h' : (match findKnownModel (pyStrip (pyLower s)) ALL_MODELS with
        | some k => some k
        | none => findVariation (pyStrip (pyLower s)) modelVariations) = some k := h
    cases hfk : findKnownModel (pyStrip (pyLower s)) ALL_MODELS with
    | some k' =>
      rw [hfk] at h'
      have hk : k' = k := by simpa using h'
      subst hk
      exact List.mem_append.mpr (Or.inl (findKnownModel_mem hfk))
    | none =>
      rw [hfk] at h'
      exact List.mem_append.mpr (Or.inr (findVariation_mem h'))

theorem cleanModelStep_stable :
    ∀ k ∈ ALL_MODELS ++ modelVariations.map Prod.snd,
      cleanModelStep (cleanModelStep (some k)) = cleanModelStep (some k) := by
  decide

theorem cleanModelStep_three (mo : Option String) :
    cleanModelStep (cleanModelStep (cleanModelStep mo)) =
    cleanModelStep (cleanModelStep mo) := by
  cases mo with
  | none => rfl
  | some s =>
    cases hn : normalize_model_name s with
    | none =>
      have h1 : cleanModelStep (some s) = some s := by
        simp [cleanModelStep, hn]
      rw [h1, h1, h1]
    | some k =>
      have h1 : cleanModelStep (some s) = some k := by
        simp [cleanModelStep, hn]
      rw [h1]
      exact cleanModelStep_stable k (normalize_model_name_mem hn)

/-! ### Per-field stability of clean_offer -/

theorem cleanYearField_stable (co : StrCoerce) (n : Int) :
    cleanYearField co (some (Val.vint n)) = n := rfl

theorem cleanOrNoneField_stable (v? : Option Val) :
    cleanOrNoneField (some (cleanOrNoneField v?)) = cleanOrNoneField v? := by
  unfold cleanOrNoneField
  by_cases h : (v?.getD Val.vnone).truthy = true
  · simp [h]
  · simp [h]

theorem cleanOfferTypeField_stable (ot : Option String) :
    cleanOfferTypeField (some (cleanOfferTypeField ot)) = cleanOfferTypeField ot := by
  unfold cleanOfferTypeField
  by_cases h : pyLower (ot.getD ("lease")) = "lease" ∨ pyLower (ot.getD ("lease")) = "finance"
  · rcases h with h | h <;> simp [h] <;> decide
  · simp [h]
    decide

theorem cleanFloatField_vfloat_ne (co : StrCoerce) {q : ℚ} (hq : q ≠ 0) :
    cleanFloatField co (some (Val.vfloat q)) = Val.vfloat q := by
  unfold cleanFloatField
  simp [Val.truthy, hq, vFloat]

theorem cleanFloatField_three (co : StrCoerce) (v? : Option Val) :
    cleanFloatField co (some (cleanFloatField co (some (cleanFloatField co v?)))) =
    cleanFloatField co (some (cleanFloatField co v?)) := by
  have shape : cleanFloatField co v? = Val.vnone ∨
      ∃ q, cleanFloatField co v? = Val.vfloat q := by
    unfold cleanFloatField
    by_cases h : (v?.getD Val.vnone).truthy = true
    · simp only [h, if_true]
      cases hf : vFloat co (v?.getD Val.vnone) with
      | none => exact Or.inl rfl
      | some q => exact Or.inr ⟨q, rfl⟩
    · simp [h]
  rcases shape with h1 | ⟨q, h1⟩
  · rw [h1]
    rfl
  · rw [h1]
    by_cases hq : q = 0
    · subst hq
      rfl
    · rw [cleanFloatField_vfloat_ne co hq, cleanFloatField_vfloat_ne co hq]

theorem cleanIntField_vint_ne (co : StrCoerce) {n : Int} (hn : n ≠ 0) :
    cleanIntField co (some (Val.vint n)) = Val.vint n := by
  unfold cleanIntField
  simp [Val.truthy, hn, vInt]

theorem cleanIntField_three (co : StrCoerce) (v? : Option Val) :
    cleanIntField co (some (cleanIntField co (some (cleanIntField co v?)))) =
    cleanIntField co (some (cleanIntField co v?)) := by
  have shape : cleanIntField co v? = Val.vnone ∨
      ∃ n, cleanIntField co v? = Val.vint n := by
    unfold cleanIntField
    by_cases h : (v?.getD Val.vnone).truthy = true
    · simp only [h, if_true]
      cases hf : vInt co (v?.getD Val.vnone) with
      | none => exact Or.inl rfl
      | some n => exact Or.inr ⟨n, rfl⟩
    · simp [h]
  rcases shape with h1 | ⟨n, h1⟩
  · rw [h1]
    rfl
  · rw [h1]
    by_cases hn : n = 0
    · subst hn
      rfl
    · rw [cleanIntField_vint_ne co hn, cleanIntField_vint_ne co hn]

theorem VALID_TERMS_ne_zero : ∀ u ∈ VALID_TERMS, u ≠ 0 := by decide

theorem cleanTermField_vint_mem (co : StrCoerce) {u : Int} (hu : u ∈ VALID_TERMS) :
    cleanTermField co (some (Val.vint u)) = Val.vint u := by
  have hu0 : u ≠ 0 := VALID_TERMS_ne_zero u hu
  unfold cleanTermField
  simp [Val.truthy, hu0, vInt, hu]

theorem cleanTermField_three (co : StrCoerce) (v? : Option Val) :
    cleanTermField co (some (cleanTermField co (some (cleanTermField co v?)))) =
    cleanTermField co (some (cleanTermField co v?)) := by
  have shape : cleanTermField co v? = Val.vnone ∨
      ∃ t, cleanTermField co v? = Val.vint t ∧ (t ∈ VALID_TERMS ∨ t = 0) := by
    unfold cleanTermField
    by_cases h : (v?.getD Val.vnone).truthy = true
    · simp only [h, if_true]
      cases hf : vInt co (v?.getD Val.vnone) with
      | none => exact Or.inl rfl
      | some t =>
        refine Or.inr ⟨_, rfl, ?_⟩
        by_cases hc : t ≠ 0 ∧ t ∉ VALID_TERMS
        · rw [if_pos hc]
          exact Or.inl (snapTerm_mem t)
        · rw [if_neg hc]
          push_neg at hc
          by_cases ht0 : t = 0
          · exact Or.inr ht0
          · exact Or.inl (hc ht0)
    · simp [h]
  rcases shape with h1 | ⟨t, h1, ht⟩
  · rw [h1]
    rfl
  · rw [h1]
    rcases ht with hm | hz
    · rw [cleanTermField_vint_mem co hm, cleanTermField_vint_mem co hm]
    · subst hz
      rfl

theorem cleanConfidenceField_stable (co : StrCoerce) (q : ℚ) :
    cleanConfidenceField co (some (Val.vfloat q)) = q := rfl

attribute [ext] RawOffer

/-! ### Claim C2 -/

/-- Candidate refuting one-pass idempotence of clean_offer: the model string
Cross normalizes to Corolla Cross on the first pass and to Corolla on the
second. -/
def xC2 : RawOffer := { model := some (some ("Cross")) }

/-- C2 counterexample: clean_offer is not idempotent; on the candidate with
model Cross the second application changes the model again. -/
theorem c2_counterexample :
    clean_offer co0 (clean_offer co0 xC2) ≠ clean_offer co0 xC2 := by
  intro h
  have h2 := congrArg RawOffer.model h
  revert h2
  decide

/-- C2 amended: clean_offer stabilizes after two applications; composing a
third application changes nothing. -/
theorem c2_clean_twice_idempotent (co : StrCoerce) (x : RawOffer) :
    clean_offer co (clean_offer co (clean_offer co x)) =
    clean_offer co (clean_offer co x) := by
  apply RawOffer.ext <;>
    simp only [clean_offer, cleanModelField, Option.getD_some, cleanYearField_stable,
      normalize_make_idem, cleanModelStep_three, cleanOrNoneField_stable,
      cleanOfferTypeField_stable, cleanFloatField_three, cleanIntField_three,
      cleanTermField_three, cleanConfidenceField_stable]

/-! ### src/scraper/css_extractors.py: field parsers

The regular expressions of the source are translated into explicit scanners
over character lists, mirroring the leftmost-match and greedy-with-backtrack
behaviour of the Python re module on the relevant patterns. -/

/-- Numeric value of a digit character. -/
def digitVal (c : Char) : Nat := c.toNat - 48

/-- Value of a digit run, most significant first. -/
def digitsToNat : List Char → Nat → Nat
  | [], acc => acc
  | c :: t, acc => digitsToNat t (acc * 10 + digitVal c)

/-- Group 1 of the price pattern anchored at a digit: the maximal digit run,
optionally extended by a dot and two digits, converted to a rational.
Commas have already been removed from the text, so the character class of
digits and commas in the source pattern matches exactly the digits. -/
def priceFrom (l : List Char) : ℚ :=
  let ds := l.takeWhile Char.isDigit
  let rest := l.dropWhile Char.isDigit
  match rest with
  | '.' :: d1 :: d2 :: _ =>
    if d1.isDigit ∧ d2.isDigit then
      (digitsToNat ds 0 : ℚ) + ((digitVal d1 * 10 + digitVal d2 : Nat) : ℚ) / 100
    else (digitsToNat ds 0 : ℚ)
  | _ => (digitsToNat ds 0 : ℚ)

/-- Leftmost match of the price pattern: the optional dollar sign does not
change group 1, so the scan anchors at the first digit. -/
def priceSearch : List Char → Option ℚ
  | [] => none
  | c :: t => if c.isDigit then some (priceFrom (c :: t)) else priceSearch t

/-- parse_price (css_extractors.py): extract a numeric price from text such
as a dollar amount with thousands separators. -/
def parse_price (text : String) : Option ℚ :=
  if text = "" then none
  else priceSearch (text.data.filter (fun c => c ≠ ','))

/-- Leftmost match of the term pattern: a digit run, optional whitespace,
then the word month case-insensitively. -/
def termSearch : List Char → Option Int
  | [] => none
  | c :: t =>
    if c.isDigit then
      let ds := (c :: t).takeWhile Char.isDigit
      let rest := ((c :: t).dropWhile Char.isDigit).dropWhile pyIsSpace
      if ("month".data.map pyLowerChar).isPrefixOf (rest.map pyLowerChar) then
        some ((digitsToNat ds 0 : Nat) : Int)
      else termSearch t
    else termSearch t

/-- parse_term (css_extractors.py): extract the number of months from text
such as a count followed by the word months. -/
def parse_term (text : String) : Option Int :=
  if text = "" then none
  else termSearch text.data

/-- Exactly k digits at the head of the list, returning them and the rest. -/
def matchNd : Nat → List Char → Option (List Char × List Char)
  | 0, l => some ([], l)
  | k + 1, c :: t =>
    if c.isDigit then (matchNd k t).map (fun p => (c :: p.1, p.2)) else none
  | _ + 1, [] => none

/-- The day-slash-year tail of the date pattern: one or two digits, a slash,
then exactly four digits, trying the two-digit day first as the greedy
engine does. -/
def matchSlashDY (l : List Char) : Option (List Char × List Char) :=
  let tryK := fun (k : Nat) =>
    match matchNd k l with
    | some (day, rest) =>
      match rest with
      | '/' :: r2 =>
        match matchNd 4 r2 with
        | some (yr, _) => some (day, yr)
        | none => none
      | _ => none
    | none => none
  match tryK 2 with
  | some v => some v
  | none => tryK 1

/-- The full month-day-year pattern at one position, trying the two-digit
month first. -/
def mdyAt (l : List Char) : Option (List Char × List Char × List Char) :=
  let tryK := fun (k : Nat) =>
    match matchNd k l with
    | some (mo, rest) =>
      match rest with
      | '/' :: r2 => (matchSlashDY r2).map (fun p => (mo, p.1, p.2))
      | _ => none
    | none => none
  match tryK 2 with
  | some v => some v
  | none => tryK 1

/-- Leftmost match of the date pattern. -/
def expSearch : List Char → Option (List Char × List Char × List Char)
  | [] => none
  | c :: t =>
    match mdyAt (c :: t) with
    | some v => some v
    | none => expSearch t

/-- Python str.zfill(2) on a digit run. -/
def zfill2 (ds : List Char) : List Char := if 2 ≤ ds.length then ds else '0' :: ds

/-- parse_expiration (css_extractors.py): extract a date in month, day,
four-digit-year form and normalize it to ISO order.  The second source
pattern, the same date preceded by the word through, can only match when the
first pattern matches somewhere, so the fallback branch returns nothing. -/
def parse_expiration (text : String) : Option String :=
  match expSearch text.data with
  | some (mo, d, yr) =>
    some (String.mk (yr ++ ('-' :: zfill2 mo) ++ ('-' :: zfill2 d)))
  | none => none

/-- The first element of a list on which the function succeeds. -/
def firstSome {α β : Type} (f : α → Option β) : List α → Option β
  | [] => none
  | a :: t =>
    match f a with
    | some b => some b
    | none => firstSome f t

theorem firstSome_some {α β : Type} {f : α → Option β} {xs : List α} {b : β}
    (h : firstSome f xs = some b) : ∃ a ∈ xs, f a = some b := by
  induction xs with
  | nil => simp [firstSome] at h
  | cons a t ih =>
    unfold firstSome at h
    cases hf : f a with
    | some v =>
      rw [hf] at h
      simp at h
      exact ⟨a, List.mem_cons_self a t, by rw [hf, h]⟩
    | none =>
      rw [hf] at h
      obtain ⟨a', ha', hfa'⟩ := ih h
      exact ⟨a', List.mem_cons.mpr (Or.inr ha'), hfa'⟩

theorem length_dropWhile_le' {α : Type} (p : α → Bool) (l : List α) :
    (l.dropWhile p).length ≤ l.length := by
  induction l with
  | nil => simp
  | cons c t ih =>
    by_cases h : p c = true
    · rw [List.dropWhile_cons_of_pos h]
      simp only [List.length_cons]
      omega
    · rw [List.dropWhile_cons_of_neg h]

/-- Case-insensitive prefix test for a literal token. -/
def startsWithCI (l : List Char) (tok : String) : Bool :=
  (tok.data.map pyLowerChar).isPrefixOf (l.map pyLowerChar)

/-- One alternative of an anchored token-plus-whitespace pattern: the token
case-insensitively, then at least one whitespace character, consumed
greedily. -/
def stripTokenCI (l : List Char) (tok : String) : Option (List Char) :=
  if startsWithCI l tok then
    let rest := l.drop tok.length
    if rest.takeWhile pyIsSpace = [] then none
    else some (rest.dropWhile pyIsSpace)
  else none

theorem stripTokenCI_length {l : List Char} {tok : String} {r : List Char}
    (h : stripTokenCI l tok = some r) : r.length < l.length := by
  unfold stripTokenCI at h
  by_cases hp : startsWithCI l tok = true
  · rw [if_pos hp] at h
    by_cases hw : (l.drop tok.length).takeWhile pyIsSpace = []
    · rw [if_pos hw] at h
      exact absurd h (by simp)
    · rw [if_neg hw] at h
      have hr : r = (l.drop tok.length).dropWhile pyIsSpace := by
        have := h
        simp at this
        exact this.symm
      cases hd : l.drop tok.length with
      | nil => rw [hd] at hw; simp [List.takeWhile] at hw
      | cons c t =>
        rw [hd] at hw hr
        by_cases hc : pyIsSpace c = true
        · have hdw : (c :: t).dropWhile pyIsSpace = t.dropWhile pyIsSpace := by
            simp [List.dropWhile, hc]
          rw [hdw] at hr
          have h1 : r.length ≤ t.length := by
            rw [hr]; exact length_dropWhile_le' pyIsSpace t
          have h2 : (l.drop tok.length).length ≤ l.length := by
            simp
          rw [hd] at h2
          simp at h2
          omega
        · simp [List.takeWhile, hc] at hw
  · rw [if_neg hp] at h
    exact absurd h (by simp)

/-- The ordered alternation of leading filler words in the vehicle
descriptor parser (css_extractors.py). -/
def fillerAlts : List String := ["new", "lease", "lease a new", "buy a new", "lease for"]

/-- Removal of the anchored leading filler pattern: the first alternative
that matches with trailing whitespace wins; no match leaves the text
unchanged. -/
def stripFiller (l : List Char) : List Char :=
  match firstSome (stripTokenCI l) fillerAlts with
  | some r => r
  | none => l

/-- The year pattern at one position: the digits two, zero, two and a digit
from four to seven. -/
def matchYearAt : List Char → Option Int
  | '2' :: '0' :: '2' :: d :: _ =>
    if '4' ≤ d ∧ d ≤ '7' then some (((2020 + (d.toNat - 48) : Nat)) : Int) else none
  | _ => none

/-- Leftmost match of the year pattern. -/
def findYearChars : List Char → Option Int
  | [] => none
  | c :: t =>
    match matchYearAt (c :: t) with
    | some y => some y
    | none => findYearChars t

/-- One occurrence of the year-plus-whitespace removal pattern. -/
def stripYearTok (l : List Char) : Option (List Char) :=
  match l with
  | a :: b :: c :: d :: rest =>
    if (a = '2' ∧ b = '0' ∧ c = '2') ∧ ('4' ≤ d ∧ d ≤ '7') ∧
        rest.takeWhile pyIsSpace ≠ [] then
      some (rest.dropWhile pyIsSpace)
    else none
  | _ => none

theorem stripYearTok_length {l r : List Char} (h : stripYearTok l = some r) :
    r.length < l.length := by
  match l with
  | [] => simp [stripYearTok] at h
  | [a] => simp [stripYearTok] at h
  | [a, b] => simp [stripYearTok] at h
  | [a, b, c] => simp [stripYearTok] at h
  | a :: b :: c :: d :: rest =>
    rw [show stripYearTok (a :: b :: c :: d :: rest) =
        (if (a = '2' ∧ b = '0' ∧ c = '2') ∧ ('4' ≤ d ∧ d ≤ '7') ∧
            rest.takeWhile pyIsSpace ≠ [] then
          some (rest.dropWhile pyIsSpace)
        else none) from rfl] at h
    by_cases hcond : (a = '2' ∧ b = '0' ∧ c = '2') ∧ ('4' ≤ d ∧ d ≤ '7') ∧
        rest.takeWhile pyIsSpace ≠ []
    · rw [if_pos hcond] at h
      have hr : r = rest.dropWhile pyIsSpace := by simpa using h.symm
      have h1 : r.length ≤ rest.length := by
        rw [hr]; exact length_dropWhile_le' pyIsSpace rest
      simp
      omega
    · rw [if_neg hcond] at h
      exact absurd h (by simp)

/-- Removal of every occurrence of the year-plus-whitespace pattern,
scanning left to right without overlap.  The fuel argument only bounds the
recursion; every successful strip consumes at least one character, so fuel
equal to the length never runs out. -/
def removeYearTokF : Nat → List Char → List Char
  | 0, l => l
  | _ + 1, [] => []
  | fuel + 1, c :: t =>
    match stripYearTok (c :: t) with
    | some rest => removeYearTokF fuel rest
    | none => c :: removeYearTokF fuel t

def removeYearTok (l : List Char) : List Char := removeYearTokF l.length l

/-- The brand list scanned by the vehicle descriptor parser
(css_extractors.py). -/
def BRANDS : List String :=
  ["Toyota", "Honda", "Tesla", "Hyundai", "Kia", "Nissan", "Ford", "Chevrolet"]

/-- Removal of every occurrence of a brand name followed by whitespace,
case-insensitively, alternatives tried in order at each position; the fuel
argument only bounds the recursion. -/
def removeBrandTokF : Nat → List Char → List Char
  | 0, l => l
  | _ + 1, [] => []
  | fuel + 1, c :: t =>
    match firstSome (stripTokenCI (c :: t)) BRANDS with
    | some rest => removeBrandTokF fuel rest
    | none => c :: removeBrandTokF fuel t

def removeBrandTok (l : List Char) : List Char := removeBrandTokF l.length l

/-- Python str.split with no separator: split on whitespace runs, dropping
empty fragments; the fuel argument only bounds the recursion. -/
def splitWsF : Nat → List Char → List (List Char)
  | 0, _ => []
  | _ + 1, [] => []
  | fuel + 1, c :: t =>
    if pyIsSpace c then splitWsF fuel t
    else
      ((c :: t).takeWhile (fun d => !(pyIsSpace d))) ::
        splitWsF fuel ((c :: t).dropWhile (fun d => !(pyIsSpace d)))

def splitWs (l : List Char) : List (List Char) := splitWsF l.length l

/-- Removal of a trailing parenthetical with its leading whitespace, the
first suffix-cleaning pattern of the vehicle descriptor parser: the match
runs from the whitespace before the first opening parenthesis through the
last closing parenthesis, which must be followed only by whitespace; the
dot of the pattern cannot cross a newline, so a newline inside the
parenthetical blocks the match. -/
def remParenSuffix (s : String) : String :=
  let l := s.data
  match idxOfChars ['('] l 0, idxOfChars [')'] l.reverse 0 with
  | some q, some ri =>
    let r := l.length - 1 - ri
    if q < r ∧ (l.drop (r + 1)).all pyIsSpace ∧
        ((l.drop (q + 1)).take (r - (q + 1))).all (fun c => c ≠ '\n') then
      String.mk (l.take (q - ((l.take q).reverse.takeWhile pyIsSpace).length))
    else s
  | _, _ => s

/-- Removal of a trailing drivetrain tag, the second suffix-cleaning
pattern: whitespace, digits, the letters W and D, then optional trailing
whitespace, anchored at the end. -/
def remWDSuffix (s : String) : String :=
  let rev := s.data.reverse
  let r1 := rev.dropWhile pyIsSpace
  match r1 with
  | 'D' :: 'W' :: r2 =>
    let ds := r2.takeWhile Char.isDigit
    let r3 := r2.dropWhile Char.isDigit
    if ds ≠ [] ∧ r3.takeWhile pyIsSpace ≠ [] then
      String.mk (r3.dropWhile pyIsSpace).reverse
    else s
  | _ => s

/-- The body-style alternation of the third suffix-cleaning pattern. -/
def bodyWords : List String := ["Sedan", "Hatchback", "Coupe", "SUV"]

/-- Removal of a trailing body-style word with its leading whitespace,
case-insensitively, anchored at the end. -/
def remBodySuffix (s : String) : String :=
  let rev := s.data.reverse
  let r1 := rev.dropWhile pyIsSpace
  match firstSome (fun (w : String) =>
      if (w.data.reverse.map pyLowerChar).isPrefixOf (r1.map pyLowerChar) then
        some (r1.drop w.length)
      else none) bodyWords with
  | some r2 => String.mk ((r2.dropWhile pyIsSpace).reverse)
  | none => s

/-- Case-insensitive substring test, as the source writes it with lower on
both sides. -/
def containsCI (hay needle : String) : Bool := pyContains (pyLower hay) (pyLower needle)

/-- The model vocabulary local to the vehicle descriptor parser
(css_extractors.py), in source order. -/
def extractorModels : List String :=
  ["Corolla Cross", "Grand Highlander", "GR Corolla", "GR Supra", "GR86",
   "Land Cruiser", "4Runner", "RAV4", "Camry", "Corolla", "Highlander",
   "Tacoma", "Tundra", "Prius", "Sienna", "Sequoia", "Venza", "Crown",
   "bZ4X", "Mirai",
   "Civic Hybrid", "Civic Hatchback", "CR-V Hybrid", "Accord Hybrid",
   "CR-V", "HR-V", "Civic", "Accord", "Pilot", "Passport",
   "Odyssey", "Ridgeline", "Prologue",
   "Model 3", "Model Y", "Model S", "Model X", "Cybertruck"]

/-- Stable insertion into a list sorted by descending length. -/
def insertLenDesc (x : String) : List String → List String
  | [] => [x]
  | y :: ys => if y.length ≤ x.length then x :: y :: ys else y :: insertLenDesc x ys

/-- Stable sort by descending length, the Python sorted call with a length
key and reverse order. -/
def sortLenDesc (l : List String) : List String := l.foldr insertLenDesc []

/-- The model scan of the vehicle descriptor parser: the first model in the
length-sorted vocabulary contained case-insensitively in the text wins; the
text after the match, stripped and with the three suffix patterns removed,
becomes the trim. -/
def findModelIn (text : String) : List String → Option (String × Option String)
  | [] => none
  | m :: ms =>
    if containsCI text m then
      let idx := (pyFind (pyLower text) (pyLower m)).getD 0
      let trimText := pyStrip (String.mk (text.data.drop (idx + m.length)))
      let t2 := remParenSuffix trimText
      let t3 := remWDSuffix t2
      let t4 := remBodySuffix t3
      some (m, if t4 ≠ "" then some (pyStrip t4) else none)
    else findModelIn text ms

/-- parse_year_make_model (css_extractors.py): parse year, make, model and
trim from a vehicle title fragment. -/
def parse_year_make_model (text0 : String) (default_make : String := "Toyota") :
    Option Int × String × String × Option String :=
  let l1 := pyStripChars text0.data
  let l2 := stripFiller l1
  let text2 := String.mk l2
  let year := findYearChars l2
  let make :=
    match BRANDS.find? (fun m => containsCI text2 m) with
    | some m => m
    | none => default_make
  let l3 := removeYearTok l2
  let l4 := removeBrandTok l3
  let text4 := String.mk l4
  match findModelIn text4 (sortLenDesc extractorModels) with
  | some (m, trim) => (year, make, m, trim)
  | none =>
    match splitWs l4 with
    | w :: _ => (year, make, String.mk w, none)
    | [] => (year, make, "Unknown", none)

/-! ### src/scraper/css_extractors.py: offer dicts and deduplication -/

/-- The standardized offer dict built by make_offer_dict: year and
term_months are always integers after defaulting. -/
structure OfferDict where
  year : Int
  make : String
  model : String
  trim : Option String
  offer_type : String
  monthly_payment : Option ℚ
  down_payment : Option ℚ
  term_months : Int
  annual_mileage : Option Int
  apr : Option ℚ
  msrp : Option ℚ
  selling_price : Option ℚ
  offer_end_date : Option String
  disclaimer : Option String
  confidence : ℚ
  image_url : Option String
  source_anchor : Option String
  extraction_method : String
deriving DecidableEq

/-- Python value-or-default on an optional integer, honouring truthiness:
zero also falls back to the default. -/
def pyOrInt (v : Option Int) (d : Int) : Int :=
  match v with
  | some n => if n ≠ 0 then n else d
  | none => d

/-- make_offer_dict (css_extractors.py): create a standardized offer dict;
a falsy year defaults to the current year and a falsy term_months to 36. -/
def make_offer_dict (year : Option Int) (make model : String) (trim : Option String)
    (offer_type : String) (monthly_payment : Option ℚ)
    (down_payment : Option ℚ := none) (term_months : Option Int := none)
    (annual_mileage : Option Int := none) (apr : Option ℚ := none)
    (offer_end_date : Option String := none) (disclaimer : Option String := none)
    (image_url : Option String := none) (confidence : ℚ := (0.85 : ℚ))
    (source_anchor : Option String := none) : OfferDict :=
  { year := pyOrInt year CURRENT_YEAR
  , make := make
  , model := model
  , trim := trim
  , offer_type := offer_type
  , monthly_payment := monthly_payment
  , down_payment := down_payment
  , term_months := pyOrInt term_months 36
  , annual_mileage := annual_mileage
  , apr := apr
  , msrp := none
  , selling_price := none
  , offer_end_date := offer_end_date
  , disclaimer := disclaimer
  , confidence := confidence
  , image_url := image_url
  , source_anchor := source_anchor
  , extraction_method := "css" }

/-- Duplicate identity of an offer (css_extractors.py dedupe_offers). -/
def dedupeKey (o : OfferDict) : Int × String × Option ℚ :=
  (o.year, o.model, o.monthly_payment)

/-- The loop of dedupe_offers with its seen set. -/
def dedupeAux (seen : List (Int × String × Option ℚ)) : List OfferDict → List OfferDict
  | [] => []
  | o :: rest =>
    if dedupeKey o ∈ seen then dedupeAux seen rest
    else o :: dedupeAux (dedupeKey o :: seen) rest

/-- dedupe_offers (css_extractors.py): remove duplicate offers based on the
year, model and payment key. -/
def dedupe_offers (offers : List OfferDict) : List OfferDict := dedupeAux [] offers

/-- Specification of the deduplicator, written from the spec sentence: the
first candidate of each key is kept in order, every later candidate sharing
its key is discarded. -/
def dedupeSpecKeepFirst : List OfferDict → List OfferDict
  | [] => []
  | o :: rest =>
    o :: dedupeSpecKeepFirst (rest.filter (fun o' => dedupeKey o' ≠ dedupeKey o))
termination_by l => l.length
decreasing_by
  have := List.length_filter_le (fun o' => decide (dedupeKey o' ≠ dedupeKey o)) rest
  simp only [List.length_cons]
  omega

theorem dedupeAux_eq (seen : List (Int × String × Option ℚ)) (l : List OfferDict) :
    dedupeAux seen l = dedupeSpecKeepFirst (l.filter (fun o => dedupeKey o ∉ seen)) := by
  induction l generalizing seen with
  | nil => simp [dedupeAux, dedupeSpecKeepFirst]
  | cons o rest ih =>
    have hstep : dedupeAux seen (o :: rest) =
        if dedupeKey o ∈ seen then dedupeAux seen rest
        else o :: dedupeAux (dedupeKey o :: seen) rest := rfl
    by_cases h : dedupeKey o ∈ seen
    · rw [hstep, if_pos h, List.filter_cons_of_neg (by simpa using h)]
      exact ih seen
    · rw [hstep, if_neg h, List.filter_cons_of_pos (by simpa using h)]
      conv_rhs => rw [dedupeSpecKeepFirst]
      rw [ih (dedupeKey o :: seen)]
      congr 1
      rw [List.filter_filter]
      congr 1
      apply List.filter_congr
      intro x _
      by_cases h1 : dedupeKey x = dedupeKey o
      · simp [h1]
      · by_cases h2 : dedupeKey x ∈ seen
        · simp [h1, h2]
        · simp [h1, h2]

/-! ### Claims C5 and C8 -/

/-- C5: dedupe_offers keeps exactly the first candidate of every
year-model-payment key, discarding later ones and preserving order; two
candidates differing only in trim share a key and therefore collapse. -/
theorem c5_dedupe_keep_first (l : List OfferDict) :
    dedupe_offers l = dedupeSpecKeepFirst l := by
  rw [dedupe_offers, dedupeAux_eq]
  congr 1
  apply List.filter_eq_self.mpr
  intro a _
  simp

/-- C8: make_offer_dict always yields integer year and term_months fields;
a falsy term_months argument silently becomes 36 and a falsy year the
current calendar year, while truthy values pass through. -/
theorem c8_make_offer_dict_defaults (year : Option Int) (make model : String)
    (trim : Option String) (offer_type : String) (monthly_payment : Option ℚ)
    (down_payment : Option ℚ) (term_months : Option Int) (annual_mileage : Option Int)
    (apr : Option ℚ) (offer_end_date : Option String) (disclaimer : Option String)
    (image_url : Option String) (confidence : ℚ) (source_anchor : Option String) :
    (term_months = none →
      (make_offer_dict year make model trim offer_type monthly_payment down_payment
        term_months annual_mileage apr offer_end_date disclaimer image_url confidence
        source_anchor).term_months = 36) ∧
    (year = none →
      (make_offer_dict year make model trim offer_type monthly_payment down_payment
        term_months annual_mileage apr offer_end_date disclaimer image_url confidence
        source_anchor).year = CURRENT_YEAR) ∧
    (∀ t, term_months = some t → t ≠ 0 →
      (make_offer_dict year make model trim offer_type monthly_payment down_payment
        term_months annual_mileage apr offer_end_date disclaimer image_url confidence
        source_anchor).term_months = t) ∧
    (∀ y, year = some y → y ≠ 0 →
      (make_offer_dict year make model trim offer_type monthly_payment down_payment
        term_months annual_mileage apr offer_end_date disclaimer image_url confidence
        source_anchor).year = y) := by
  refine ⟨fun h => ?_, fun h => ?_, fun t ht ht0 => ?_, fun y hy hy0 => ?_⟩
  · show pyOrInt term_months 36 = 36
    rw [h]
    rfl
  · show pyOrInt year CURRENT_YEAR = CURRENT_YEAR
    rw [h]
    rfl
  · show pyOrInt term_months 36 = t
    rw [ht]
    simp [pyOrInt, ht0]
  · show pyOrInt year CURRENT_YEAR = y
    rw [hy]
    simp [pyOrInt, hy0]

theorem c8_make_offer_dict_defaults_witness :
    (make_offer_dict none ("Toyota") ("Camry") none ("lease") (some 299) none none
      none none none none none (0.85 : ℚ) none).term_months = 36 ∧
    (make_offer_dict none ("Toyota") ("Camry") none ("lease") (some 299) none none
      none none none none none (0.85 : ℚ) none).year = CURRENT_YEAR ∧
    (make_offer_dict (some 2025) ("Toyota") ("Camry") none ("lease") (some 299) none
      (some 39) none none none none none (0.85 : ℚ) none).term_months = 39 :=
  ⟨(c8_make_offer_dict_defaults none ("Toyota") ("Camry") none ("lease") (some 299)
      none none none none none none none (0.85 : ℚ) none).1 rfl,
   (c8_make_offer_dict_defaults none ("Toyota") ("Camry") none ("lease") (some 299)
      none none none none none none none (0.85 : ℚ) none).2.1 rfl,
   (c8_make_offer_dict_defaults (some 2025) ("Toyota") ("Camry") none ("lease")
      (some 299) none (some 39) none none none none none (0.85 : ℚ) none).2.2.1
      39 rfl (by decide)⟩

/-! ### Claim C6: parsers are total and return nothing on digit-free text -/

theorem priceSearch_nodigit {l : List Char} (h : ∀ c ∈ l, c.isDigit = false) :
    priceSearch l = none := by
  induction l with
  | nil => rfl
  | cons c t ih =>
    rw [show priceSearch (c :: t) =
        (if c.isDigit = true then some (priceFrom (c :: t)) else priceSearch t) from rfl]
    rw [if_neg (by simp [h c (List.mem_cons_self c t)])]
    exact ih (fun d hd => h d (List.mem_cons.mpr (Or.inr hd)))

theorem termSearch_nodigit {l : List Char} (h : ∀ c ∈ l, c.isDigit = false) :
    termSearch l = none := by
  induction l with
  | nil => rfl
  | cons c t ih =>
    rw [show termSearch (c :: t) =
        (if c.isDigit = true then
          (if ("month".data.map pyLowerChar).isPrefixOf
              ((((c :: t).dropWhile Char.isDigit).dropWhile pyIsSpace).map pyLowerChar) then
            some ((digitsToNat ((c :: t).takeWhile Char.isDigit) 0 : Nat) : Int)
          else termSearch t)
        else termSearch t) from rfl]
    rw [if_neg (by simp [h c (List.mem_cons_self c t)])]
    exact ih (fun d hd => h d (List.mem_cons.mpr (Or.inr hd)))

theorem matchNd_nodigit {l : List Char} (h : ∀ c ∈ l, c.isDigit = false)
    {k : Nat} (hk : k ≠ 0) : matchNd k l = none := by
  cases k with
  | zero => exact absurd rfl hk
  | succ k' =>
    cases l with
    | nil => rfl
    | cons c t =>
      rw [show matchNd (k' + 1) (c :: t) =
          (if c.isDigit = true then (matchNd k' t).map (fun p => (c :: p.1, p.2))
           else none) from rfl]
      rw [if_neg (by simp [h c (List.mem_cons_self c t)])]

theorem mdyAt_nodigit {l : List Char} (h : ∀ c ∈ l, c.isDigit = false) :
    mdyAt l = none := by
  simp only [mdyAt]
  rw [@matchNd_nodigit l h 2 (by omega), @matchNd_nodigit l h 1 (by omega)]

theorem expSearch_nodigit {l : List Char} (h : ∀ c ∈ l, c.isDigit = false) :
    expSearch l = none := by
  induction l with
  | nil => rfl
  | cons c t ih =>
    rw [show expSearch (c :: t) =
        (match mdyAt (c :: t) with
         | some v => some v
         | none => expSearch t) from rfl]
    rw [mdyAt_nodigit h]
    exact ih (fun d hd => h d (List.mem_cons.mpr (Or.inr hd)))

/-- C6: the field parsers are total functions in this embedding, and on
text without a digit they return nothing rather than failing; the vehicle
descriptor parser returns the defaulted tuple with the supplied make and
the model Unknown on empty input. -/
theorem c6_parsers_total (s : String) (d : String)
    (h : ∀ c ∈ s.data, c.isDigit = false) :
    parse_price s = none ∧ parse_term s = none ∧ parse_expiration s = none ∧
    parse_year_make_model ("") d = (none, d, "Unknown", none) := by
  refine ⟨?_, ?_, ?_, ?_⟩
  · unfold parse_price
    by_cases hs : s = ""
    · rw [if_pos hs]
    · rw [if_neg hs]
      apply priceSearch_nodigit
      intro c hc
      exact h c (List.mem_filter.mp hc).1
  · unfold parse_term
    by_cases hs : s = ""
    · rw [if_pos hs]
    · rw [if_neg hs]
      exact termSearch_nodigit h
  · unfold parse_expiration
    rw [expSearch_nodigit h]
  · have e3 : removeYearTok ([] : List Char) = [] := rfl
    have e4 : removeBrandTok ([] : List Char) = [] := rfl
    have e5 : splitWs ([] : List Char) = [] := rfl
    unfold parse_year_make_model
    simp only [show pyStripChars (String.data "") = ([] : List Char) from rfl,
      show stripFiller ([] : List Char) = [] from rfl, e3, e4, e5]
    rfl

theorem c6_parsers_total_witness :
    (∀ c ∈ ("no deal today!!").data, c.isDigit = false) ∧
    parse_price ("no deal today!!") = none ∧
    parse_term ("no deal today!!") = none ∧
    parse_expiration ("no deal today!!") = none ∧
    parse_year_make_model ("") ("Honda") = (none, "Honda", "Unknown", none) :=
  ⟨by decide,
   (c6_parsers_total ("no deal today!!") ("Honda") (by decide)).1,
   (c6_parsers_total ("no deal today!!") ("Honda") (by decide)).2.1,
   (c6_parsers_total ("no deal today!!") ("Honda") (by decide)).2.2.1,
   (c6_parsers_total ("no deal today!!") ("Honda") (by decide)).2.2.2⟩

/-! ### A DOM model for the structural extractors

Parsed markup is modelled as a tree of element and text nodes; the
BeautifulSoup operations used by the octane extractor (class selectors over
descendants, text collection, parent traversal, attribute access) are
defined over this tree.  The soup handed to an extractor is the document
root node. -/

inductive Node where
  | elem (tag : String) (attrs : List (String × String)) (children : List Node)
  | text (s : String)

/-- Attribute access, tag.get(key). -/
def Node.attr : Node → String → Option String
  | .elem _ attrs _, k => attrs.lookup k
  | .text _, _ => none

/-- The whitespace-separated class tokens of an element. -/
def splitClasses (s : String) : List String := (splitWs s.data).map String.mk

/-- Class-selector test: the class attribute, split on whitespace, contains
the token. -/
def hasClass (n : Node) (cls : String) : Bool :=
  match Node.attr n ("class") with
  | some s => (splitClasses s).contains cls
  | none => false

mutual
/-- All strings of a subtree in document order. -/
def nodeStrings : Node → List String
  | .text s => [s]
  | .elem _ _ cs => nodesStrings cs
def nodesStrings : List Node → List String
  | [] => []
  | n :: ns => nodeStrings n ++ nodesStrings ns
end

/-- get_text(): the raw concatenation of all strings below the node. -/
def getTextRaw (n : Node) : String := String.join (nodeStrings n)

/-- get_text(strip=True): each string stripped, empties dropped, joined. -/
def getTextStrip (n : Node) : String :=
  String.join (((nodeStrings n).map pyStrip).filter (fun s => s ≠ ""))

mutual
/-- The proper descendant elements of a node in document order. -/
def subElems : Node → List Node
  | .text _ => []
  | .elem _ _ cs => elemsList cs
def elemsList : List Node → List Node
  | [] => []
  | n :: ns => selfAndSub n ++ elemsList ns
def selfAndSub : Node → List Node
  | .text _ => []
  | .elem t a cs => Node.elem t a cs :: elemsList cs
end

/-- tag.select_one(selector): the first descendant element matching the
predicate, in document order. -/
def selectOne (n : Node) (p : Node → Bool) : Option Node := (subElems n).find? p

mutual
/-- Every element of a subtree paired with its ancestor chain, nearest
ancestor first, in document order. -/
def elemsWithAncNode (anc : List Node) : Node → List (Node × List Node)
  | .text _ => []
  | .elem t a cs =>
    (Node.elem t a cs, anc) :: elemsWithAncList (Node.elem t a cs :: anc) cs
def elemsWithAncList (anc : List Node) : List Node → List (Node × List Node)
  | [] => []
  | n :: ns => elemsWithAncNode anc n ++ elemsWithAncList anc ns
end

/-- The parent-walk loop of the octane extractor: starting from the parent
of the title element, walk upward at most ten times looking for an element
containing a price; a loop that runs out of fuel leaves the last container
unchecked, exactly as the source loop does. -/
def walkLoop (isPrice : Node → Bool) : Nat → Option (Node × List Node) → Option (Node × List Node)
  | 0, cur => cur
  | _ + 1, none => none
  | fuel + 1, some (c, anc) =>
    if (selectOne c isPrice).isSome then some (c, anc)
    else
      walkLoop isPrice fuel
        (match anc with
         | [] => none
         | p :: rest => some (p, rest))

/-- The octane title selector (two class alternatives). -/
def isOctTitle (n : Node) : Bool :=
  hasClass n ("octane-specials-css-vehicle-title") ||
    hasClass n ("octane-specials-css-vehicle-slide-title")

/-- The octane price selector. -/
def isOctPrice (n : Node) : Bool := hasClass n ("octane-specials-css-offer-price")

/-- The octane price-subtext selector. -/
def isOctSubtext (n : Node) : Bool :=
  hasClass n ("octane-specials-css-offer-price-subtext")

/-- Group 1 of the down-payment pattern at one position: an optional dollar
sign, at least one digit or comma taken greedily, optional whitespace, then
one of the due-at-signing literals case-insensitively.  An initial dollar
sign that is not followed by a digit or comma cannot start a match, so the
optional dollar is consumed whenever present. -/
def downBody (l : List Char) : Option (List Char) :=
  let ds := l.takeWhile (fun c => c.isDigit || c = ',')
  if ds = [] then none
  else
    let rest := (l.dropWhile (fun c => c.isDigit || c = ',')).dropWhile pyIsSpace
    if startsWithCI rest ("due at signing") || startsWithCI rest ("at signing") then
      some ds
    else none

def downAt (l : List Char) : Option (List Char) :=
  match l with
  | '$' :: r => downBody r
  | _ => downBody l

/-- Leftmost match of the down-payment pattern. -/
def downSearch : List Char → Option (List Char)
  | [] => none
  | c :: t =>
    match downAt (c :: t) with
    | some ds => some ds
    | none => downSearch t

/-- The annual-mileage pattern at one position: one or two digits tried
greedily, a run of commas and whitespace, three zero digits, optional
whitespace, then the word mile case-insensitively. -/
def mileageAt (l : List Char) : Option Nat :=
  let tryK := fun (k : Nat) =>
    match matchNd k l with
    | some (ds, rest) =>
      match rest.dropWhile (fun c => c = ',' || pyIsSpace c) with
      | '0' :: '0' :: '0' :: r3 =>
        if startsWithCI (r3.dropWhile pyIsSpace) ("mile") then
          some (digitsToNat ds 0)
        else none
      | _ => none
    | none => none
  match tryK 2 with
  | some v => some v
  | none => tryK 1

/-- Leftmost match of the annual-mileage pattern. -/
def mileageSearch : List Char → Option Nat
  | [] => none
  | c :: t =>
    match mileageAt (c :: t) with
    | some v => some v
    | none => mileageSearch t

/-- The octane image selector: an img element whose src attribute contains
vehicle or toyota or whose alt attribute contains Toyota, case-sensitively
as in CSS attribute substring selectors. -/
def isOctImg (n : Node) : Bool :=
  match n with
  | .elem t _ _ =>
    t = "img" &&
      ((match Node.attr n ("src") with
        | some v => pyContains v ("vehicle") || pyContains v ("toyota")
        | none => false) ||
       (match Node.attr n ("alt") with
        | some v => pyContains v ("Toyota")
        | none => false))
  | .text _ => false

/-- The truthy src of an image: src, or data-src when src is absent or
empty. -/
def imgSrc (n : Node) : Option String :=
  let s1 := (Node.attr n ("src")).getD ""
  if s1 ≠ "" then some s1
  else
    let s2 := (Node.attr n ("data-src")).getD ""
    if s2 ≠ "" then some s2 else none

/-- Simplified model of urllib.parse.urljoin, adequate for the absolute and
root-relative links the extractors feed it: an absolute link is returned
unchanged, anything else is appended to the base. -/
def urljoin (base rel : String) : String :=
  if pyContains rel ("://") then rel else base ++ rel

/-- A truthy id attribute. -/
def getId (n : Node) : Option String :=
  match Node.attr n ("id") with
  | some s => if s ≠ "" then some s else none
  | none => none

/-- The anchor walk of the octane extractor: up to three parents are
searched for a truthy id. -/
def anchorWalk : Nat → List Node → Option String
  | 0, _ => none
  | _ + 1, [] => none
  | fuel + 1, p :: rest =>
    match getId p with
    | some i => some i
    | none => anchorWalk fuel rest

/-- extract_octane (css_extractors.py): extract offers from the octane
specials platform.  The per-container exception handler of the source has
no counterpart because every operation of the embedding is total. -/
def extract_octane (soup : Node) (base_url : String := "") (default_make : String := "Toyota") :
    List OfferDict :=
  let title_elements := (elemsWithAncNode [] soup).filter (fun p => isOctTitle p.1)
  let offers := title_elements.filterMap (fun p =>
    let title_el := p.1
    let vehicle_text := getTextStrip title_el
    if vehicle_text = "" ∨ vehicle_text.length < 5 then none
    else
      match walkLoop isOctPrice 10
          (match p.2 with
           | [] => none
           | parent :: rest => some (parent, rest)) with
      | none => none
      | some (container, canc) =>
        match selectOne container isOctPrice with
        | none => none
        | some price_el =>
          let price_text := getTextStrip price_el
          let subtext :=
            match selectOne container isOctSubtext with
            | some e => pyLower (getTextStrip e)
            | none => ""
          let finance? := pyContains subtext ("apr") || pyContains price_text ("%")
          let monthly_payment := if finance? then none else parse_price price_text
          let apr := if finance? then parse_price price_text else none
          if monthly_payment = none ∧ apr = none then none
          else
            match parse_year_make_model vehicle_text default_make with
            | (year, make, model, trim) =>
              let container_text := getTextRaw container
              let down_payment :=
                match downSearch container_text.data with
                | some ds => parse_price (String.mk ds)
                | none => none
              let term_months := parse_term container_text
              let annual_mileage :=
                (mileageSearch container_text.data).map (fun n => ((n * 1000 : Nat) : Int))
              let image_url :=
                match selectOne container isOctImg with
                | some img => (imgSrc img).map (fun src => urljoin base_url src)
                | none => none
              let source_anchor :=
                match getId container with
                | some i => some i
                | none => anchorWalk 3 canc
              some (make_offer_dict year make model trim
                (if finance? then ("finance") else ("lease")) monthly_payment
                down_payment term_months annual_mileage apr none none image_url
                (0.85 : ℚ) source_anchor))
  dedupe_offers offers

/-! ### Claim C4 -/

/-- The synthetic octane-layout page of the end-to-end scenario: one offer
container whose price element text is a 299 dollar amount and whose
container text mentions a 36 month term and a 3,499 dollar due-at-signing
amount. -/
def octanePage : Node :=
  Node.elem ("html") [] [
    Node.elem ("div") [("class", "offer-box"), ("id", "offer-1")] [
      Node.elem ("span") [("class", "octane-specials-css-vehicle-title")]
        [Node.text ("New 2025 Toyota Camry LE")],
      Node.elem ("span") [("class", "octane-specials-css-offer-price")]
        [Node.text ("$299")],
      Node.elem ("span") [("class", "octane-specials-css-offer-price-subtext")]
        [Node.text ("/month")],
      Node.text ("36 Months lease $3,499 due at signing")]]

/-- C4: on the synthetic octane page, extract_octane returns exactly one
candidate, a lease with monthly payment 299, term 36 months and down
payment 3499. -/
theorem c4_octane_scenario :
    (extract_octane octanePage ("") ("Toyota")).map
        (fun o => (o.offer_type, o.monthly_payment, o.term_months, o.down_payment)) =
      [(("lease" : String), (some (299 : ℚ)), (36 : Int), (some (3499 : ℚ)))] := by
  decide

/-! ### src/scraper/extractor.py: the extraction orchestrator

The pieces of the orchestrator that live outside this repository or outside
pure computation are abstracted as function parameters: parsing markup into
a DOM (BeautifulSoup), the two platform extractors not exercised by any
claim, image harvesting over raw markup, markup-to-text cleaning, and the
generative backend itself.  Every theorem holds for all behaviours of these
parameters.  The orchestrator returns the extracted candidates together
with the number of generative-backend invocations. -/

/-- The fixed extraction instruction (extractor.py), as formatted: the
template text with the page-text placeholder at its end. -/
def EXTRACTION_PROMPT_prefix : String := "Extract all current vehicle lease and finance offers from this dealership page.\n\nReturn a JSON array. Each offer should have this structure:\n\x7b\n  \"year\": 2025,\n  \"make\": \"Toyota\",\n  \"model\": \"RAV4\",\n  \"trim\": \"LE\",\n  \"offer_type\": \"lease\",\n  \"monthly_payment\": 299.00,\n  \"down_payment\": 3499.00,\n  \"term_months\": 36,\n  \"annual_mileage\": 12000,\n  \"apr\": null,\n  \"msrp\": null,\n  \"selling_price\": null,\n  \"offer_end_date\": \"2025-02-28\",\n  \"disclaimer\": \"Plus tax, title, license. On approved credit...\",\n  \"confidence\": 0.95\n\x7d\n\nRules:\n- Only extract CURRENT offers (not expired)\n- Use null for any field you cannot determine\n- The \"make\" field should be the car manufacturer (Toyota, Honda, Tesla, etc.)\n- monthly_payment and down_payment are in dollars (not cents)\n- Set confidence between 0.0 and 1.0:\n  - 0.9+ : All key fields clearly stated\n  - 0.7-0.9 : Most fields clear, some inferred\n  - 0.5-0.7 : Several fields uncertain or missing\n  - Below 0.5 : Don\x27t include the offer\n- If no valid offers found, return an empty array []\n- Return ONLY the JSON array, no explanation or markdown\n\nDealership page content:\n"

/-- EXTRACTION_PROMPT.format(page_text=text). -/
def promptOf (page_text : String) : String := EXTRACTION_PROMPT_prefix ++ page_text

/-- truncate_text (extractor.py): truncate to the character budget, backing
up to the last sentence boundary when it lies beyond eighty percent of the
budget.  The float product of the source rounds to a value strictly between
12000 and 12001 at the default budget, so the exact-rational comparison
used here agrees with it at every integer position. -/
def truncate_text (text : String) (max_chars : Nat := 15000) : String :=
  if text.length ≤ max_chars then text
  else
    let truncated := String.mk (text.data.take max_chars)
    match idxOfChars ['.'] truncated.data.reverse 0 with
    | some ri =>
      let last_period : Nat := max_chars - 1 - ri
      if ((last_period : ℚ) > (max_chars : ℚ) * (0.8 : ℚ)) then
        String.mk (truncated.data.take (last_period + 1))
      else truncated
    | none => truncated

/-- has_offer_indicators (extractor.py): how many of the offer keywords
occur in the lowered text, and whether that count reaches the minimum. -/
def has_offer_indicators (text : String) : Bool × Nat :=
  let text_lower := pyLower text
  let found := (OFFER_KEYWORDS.filter (fun k => pyContains text_lower (pyLower k))).length
  (decide (MIN_OFFER_KEYWORDS ≤ found), found)

/-- detect_platform (css_extractors.py): fingerprint the markup against the
known platforms in priority order. -/
def detect_platform (html : String) : Option String :=
  if pyContains html ("octane-specials-css") then some ("octane")
  else if pyContains html ("vehicle-specials-banner") &&
      pyContains html ("vehicle-specials-vehiclename") then some ("dealeron_gemini")
  else if pyContains html ("special-offer") &&
      (pyContains html ("offerrate") || pyContains html ("offer-content")) then
    some ("dealerinspire")
  else none

/-- DEALER_PLATFORM_OVERRIDES (css_extractors.py). -/
def DEALER_PLATFORM_OVERRIDES : List (String × String) :=
  [("longo-toyota", "octane"),
   ("toyota-downtown-la", "dealeron_gemini"),
   ("north-hollywood-toyota", "dealeron_gemini"),
   ("culver-city-toyota", "dealerinspire"),
   ("autonation-toyota-cerritos", "dealerinspire"),
   ("airport-marina-honda", "dealerinspire"),
   ("galpin-honda", "dealerinspire"),
   ("goudy-honda", "dealerinspire"),
   ("norm-reeves-honda-cerritos", "dealerinspire")]

/-- has_css_extractor (css_extractors.py). -/
def has_css_extractor (dealer_slug : String) : Bool :=
  (DEALER_PLATFORM_OVERRIDES.lookup dealer_slug).isSome

/-- extract_with_css (css_extractors.py): slug override first, then
auto-detection, then the platform extractor; the two platforms not
exercised by any claim are parameters.  The surrounding exception handler
of the source has no counterpart because the embedding is total. -/
def extract_with_css (soupParse : String → Node)
    (extractGemini extractDI : Node → String → String → List OfferDict)
    (dealer_slug html : String) (base_url : String := "")
    (default_make : String := "Toyota") : List OfferDict :=
  let platform :=
    match DEALER_PLATFORM_OVERRIDES.lookup dealer_slug with
    | some p => some p
    | none => detect_platform html
  match platform with
  | none => []
  | some p =>
    if p = "octane" then extract_octane (soupParse html) base_url default_make
    else if p = "dealeron_gemini" then extractGemini (soupParse html) base_url default_make
    else if p = "dealerinspire" then extractDI (soupParse html) base_url default_make
    else []

/-- View of a standardized extractor dict as a candidate dict. -/
def OfferDict.toRaw (o : OfferDict) : RawOffer :=
  { year := some (Val.vint o.year)
  , make := some (some o.make)
  , image_url := some (match o.image_url with | some s => Val.vstr s | none => Val.vnone)
  , model := some (some o.model)
  , trim := some (match o.trim with | some s => Val.vstr s | none => Val.vnone)
  , offer_type := some o.offer_type
  , monthly_payment :=
      some (match o.monthly_payment with | some q => Val.vfloat q | none => Val.vnone)
  , down_payment :=
      some (match o.down_payment with | some q => Val.vfloat q | none => Val.vnone)
  , term_months := some (Val.vint o.term_months)
  , annual_mileage :=
      some (match o.annual_mileage with | some n => Val.vint n | none => Val.vnone)
  , apr := some (match o.apr with | some q => Val.vfloat q | none => Val.vnone)
  , msrp := some (match o.msrp with | some q => Val.vfloat q | none => Val.vnone)
  , selling_price :=
      some (match o.selling_price with | some q => Val.vfloat q | none => Val.vnone)
  , offer_end_date :=
      some (match o.offer_end_date with | some s => Val.vstr s | none => Val.vnone)
  , disclaimer := some (match o.disclaimer with | some s => Val.vstr s | none => Val.vnone)
  , confidence := some (Val.vfloat o.confidence)
  , source_anchor :=
      some (match o.source_anchor with | some s => Val.vstr s | none => Val.vnone)
  , extraction_method := some (Val.vstr o.extraction_method) }

/-- Python str.lower().replace of spaces by nothing, the model key used for
image attachment. -/
def removeSpaces (s : String) : String := String.mk (s.data.filter (fun c => c ≠ ' '))

/-- The image-attachment loop of extract_offers: offers whose normalized
model key has a harvested image get their image_url set.  A candidate whose
model key holds Python None would make the source raise inside its handler
and return an empty list; such candidates read as an empty model here. -/
def attach_images (model_images : List (String × String)) (offers : List RawOffer) :
    List RawOffer :=
  offers.map (fun o =>
    let m := match o.model with
      | some (some s) => s
      | _ => ""
    match model_images.lookup (removeSpaces (pyLower m)) with
    | some url => { o with image_url := some (Val.vstr url) }
    | none => o)

/-- extract_offers (extractor.py): the extraction orchestrator.  CSS
extraction is attempted when the slug has an override or the markup
fingerprints a platform; a nonempty CSS result returns immediately with
zero generative calls; otherwise the cleaned, truncated text must be at
least 100 characters long and pass the keyword pre-check before the
generative backend is invoked exactly once. -/
def extract_offers (soupParse : String → Node)
    (extractGemini extractDI : Node → String → String → List OfferDict)
    (extractImages : String → String → List (String × String))
    (cleanHtml : String → String)
    (llm : String → List RawOffer)
    (html dealer_name : String) (base_url : String := "") (dealer_slug : String := "")
    (default_make : String := "Toyota") : List RawOffer × Nat :=
  let can_css := (dealer_slug ≠ "" && has_css_extractor dealer_slug) ||
    (detect_platform html).isSome
  let cssOffers :=
    if can_css then
      (extract_with_css soupParse extractGemini extractDI dealer_slug html base_url
        default_make).map OfferDict.toRaw
    else []
  if can_css ∧ cssOffers ≠ [] then (cssOffers, 0)
  else
    let model_images := extractImages html base_url
    let text := truncate_text (cleanHtml html) 15000
    if text.length < 100 then ([], 0)
    else if ¬ (has_offer_indicators text).1 then ([], 0)
    else (attach_images model_images (llm (promptOf text)), 1)

/-! ### Claims C1 and C10 -/

/-- C10: when the dealer has no platform override, the markup fingerprints
no platform, and the cleaned truncated text is shorter than 100 characters,
extract_offers returns the empty list with zero generative-backend
invocations, regardless of keyword content. -/
theorem c10_short_text_guard (soupParse : String → Node)
    (extractGemini extractDI : Node → String → String → List OfferDict)
    (extractImages : String → String → List (String × String))
    (cleanHtml : String → String) (llm : String → List RawOffer)
    (html dealer_name base_url dealer_slug default_make : String)
    (hslug : has_css_extractor dealer_slug = false)
    (hplat : detect_platform html = none)
    (hshort : (truncate_text (cleanHtml html) 15000).length < 100) :
    extract_offers soupParse extractGemini extractDI extractImages cleanHtml llm
      html dealer_name base_url dealer_slug default_make = ([], 0) := by
  unfold extract_offers
  simp only [hslug, hplat, Bool.and_false, Option.isSome_none, Bool.or_self,
    Bool.false_eq_true, if_false, Bool.false_and, Bool.and_self]
  rw [if_neg (by simp)]
  rw [if_pos hshort]

/-- C1 amended: with no platform override and no fingerprinted platform,
extract_offers invokes the generative backend exactly once when the cleaned
truncated text is at least 100 characters long and contains at least 3 of
the offer keywords, and never otherwise; whenever the keyword count is
below 3 it returns the empty list with zero invocations. -/
theorem c1_fallback_gating (soupParse : String → Node)
    (extractGemini extractDI : Node → String → String → List OfferDict)
    (extractImages : String → String → List (String × String))
    (cleanHtml : String → String) (llm : String → List RawOffer)
    (html dealer_name base_url dealer_slug default_make : String)
    (hslug : has_css_extractor dealer_slug = false)
    (hplat : detect_platform html = none) :
    ((extract_offers soupParse extractGemini extractDI extractImages cleanHtml llm
        html dealer_name base_url dealer_slug default_make).2 =
      if 100 ≤ (truncate_text (cleanHtml html) 15000).length ∧
          3 ≤ (has_offer_indicators (truncate_text (cleanHtml html) 15000)).2 then 1
      else 0) ∧
    ((has_offer_indicators (truncate_text (cleanHtml html) 15000)).2 < 3 →
      extract_offers soupParse extractGemini extractDI extractImages cleanHtml llm
        html dealer_name base_url dealer_slug default_make = ([], 0)) := by
  have hfst : (has_offer_indicators (truncate_text (cleanHtml html) 15000)).1 =
      decide (3 ≤ (has_offer_indicators (truncate_text (cleanHtml html) 15000)).2) := rfl
  constructor
  · unfold extract_offers
    simp only [hslug, hplat, Bool.and_false, Option.isSome_none, Bool.or_self,
      Bool.false_eq_true, if_false, Bool.false_and, Bool.and_self]
    rw [if_neg (by simp)]
    by_cases hlen : (truncate_text (cleanHtml html) 15000).length < 100
    · rw [if_pos hlen, if_neg (fun hc => absurd hc.1 (by omega))]
    · rw [if_neg hlen]
      by_cases hkw : 3 ≤ (has_offer_indicators (truncate_text (cleanHtml html) 15000)).2
      · have h1 : ¬(¬(has_offer_indicators (truncate_text (cleanHtml html) 15000)).1 = true) := by
          rw [hfst]
          simpa using hkw
        rw [if_neg h1, if_pos ⟨by omega, hkw⟩]
      · have h1 : ¬(has_offer_indicators (truncate_text (cleanHtml html) 15000)).1 = true := by
          rw [hfst]
          simpa using hkw
        rw [if_pos h1, if_neg (fun hc => absurd hc.2 hkw)]
  · intro hlt
    unfold extract_offers
    simp only [hslug, hplat, Bool.and_false, Option.isSome_none, Bool.or_self,
      Bool.false_eq_true, if_false, Bool.false_and, Bool.and_self]
    rw [if_neg (by simp)]
    by_cases hlen : (truncate_text (cleanHtml html) 15000).length < 100
    · rw [if_pos hlen]
    · rw [if_neg hlen]
      have h1 : ¬(has_offer_indicators (truncate_text (cleanHtml html) 15000)).1 = true := by
        rw [hfst]
        simp
        omega
      rw [if_pos h1]

/-- A trivial markup parser for the witnesses. -/
def soup0 : String → Node := fun _ => Node.elem ("html") [] []

/-- A trivial platform extractor for the witnesses. -/
def px0 : Node → String → String → List OfferDict := fun _ _ _ => []

/-- A trivial image harvester for the witnesses. -/
def imgs0 : String → String → List (String × String) := fun _ _ => []

/-- A generative backend returning one candidate, so that a zero invocation
count is observable in the witnesses. -/
def llm1 : String → List RawOffer := fun _ => [{ model := some (some ("Camry")) }]

/-- A cleaner producing a short keyword-free text. -/
def cH0 : String → String := fun _ => "tiny page"

/-- A cleaner producing a short text that nevertheless contains three offer
keywords. -/
def cHshort : String → String := fun _ => "lease finance apr"

/-- A cleaner producing a long keyword-rich text. -/
def cH1 : String → String := fun _ =>
  "monthly lease offers with finance options at low apr rates and nothing due at signing for qualified buyers this month only"

theorem c10_short_text_guard_witness :
    has_css_extractor ("") = false ∧ detect_platform ("plain page") = none ∧
    (truncate_text (cH0 ("plain page")) 15000).length < 100 ∧
    extract_offers soup0 px0 px0 imgs0 cH0 llm1 ("plain page") ("Dealer") ("") ("")
      ("Toyota") = ([], 0) :=
  ⟨by decide, by decide, by decide,
   c10_short_text_guard soup0 px0 px0 imgs0 cH0 llm1 ("plain page") ("Dealer") ("")
     ("") ("Toyota") (by decide) (by decide) (by decide)⟩

/-- C1 counterexample: a page whose cleaned text contains three offer
keywords but is shorter than 100 characters never reaches the generative
backend, refuting the claim that the backend is invoked whenever the
keyword count is at least 3. -/
theorem c1_counterexample :
    3 ≤ (has_offer_indicators (truncate_text (cHshort ("plain page")) 15000)).2 ∧
    extract_offers soup0 px0 px0 imgs0 cHshort llm1 ("plain page") ("Dealer") ("")
      ("") ("Toyota") = ([], 0) := by
  constructor
  · decide
  · decide

theorem c1_fallback_gating_witness :
    has_css_extractor ("") = false ∧ detect_platform ("plain page") = none ∧
    ((extract_offers soup0 px0 px0 imgs0 cH1 llm1 ("plain page") ("Dealer") ("") ("")
        ("Toyota")).2 =
      if 100 ≤ (truncate_text (cH1 ("plain page")) 15000).length ∧
          3 ≤ (has_offer_indicators (truncate_text (cH1 ("plain page")) 15000)).2 then 1
      else 0) ∧
    ((has_offer_indicators (truncate_text (cH0 ("plain page")) 15000)).2 < 3 →
      extract_offers soup0 px0 px0 imgs0 cH0 llm1 ("plain page") ("Dealer") ("") ("")
        ("Toyota") = ([], 0)) :=
  ⟨by decide, by decide,
   (c1_fallback_gating soup0 px0 px0 imgs0 cH1 llm1 ("plain page") ("Dealer") ("")
     ("") ("Toyota") (by decide) (by decide)).1,
   (c1_fallback_gating soup0 px0 px0 imgs0 cH0 llm1 ("plain page") ("Dealer") ("")
     ("") ("Toyota") (by decide) (by decide)).2⟩
